import Mathlib

/-!
Verification development for the `tilearray` core: a shallow embedding of the
tile-grid planning, fetch/cache/decode pipeline and assembly engine, together
with theorems about the embedded definitions.

Conventions of the embedding:
* Python floats are modelled as rationals (`ℚ`).
* Python ints used as pixel sizes are modelled as `Nat`; grid row/column
  counts (which the code checks for non-positivity) as `Int`.
* Fallible Python code (functions that may `raise`) returns `Except String α`;
  the error string mirrors the exception message.
* Python dicts are modelled as association lists in insertion order.
* Byte strings are modelled as `List Nat`.
-/

namespace TileArray

/-- `CRS` enumeration from `types.py` (`class CRS(str, Enum)`). -/
inductive CRS where
  | epsg4326
  | epsg3857
  | epsg32633
  | epsg27700
deriving DecidableEq

/-- The string value of a `CRS` member, as in `types.py`. -/
def CRS.value : CRS → String
  | .epsg4326 => "EPSG:4326"
  | .epsg3857 => "EPSG:3857"
  | .epsg32633 => "EPSG:32633"
  | .epsg27700 => "EPSG:27700"

/-- `Format` enumeration from `types.py` (`class Format(str, Enum)`). -/
inductive Format where
  | geotiff
  | png
  | jpeg
deriving DecidableEq

/-- The string value of a `Format` member, as in `types.py`. -/
def Format.value : Format → String
  | .geotiff => "image/tiff"
  | .png => "image/png"
  | .jpeg => "image/jpeg"

/-- `BoundingBox` from `types.py`, coordinates modelled as rationals.
The pydantic `validate_coordinates` invariant is modelled separately by
`validate_bbox` / `BoundingBox.valid`. -/
structure BoundingBox where
  min_x : ℚ
  min_y : ℚ
  max_x : ℚ
  max_y : ℚ
  crs : CRS := .epsg4326
deriving DecidableEq

instance : Inhabited BoundingBox := ⟨⟨0, 0, 1, 1, .epsg4326⟩⟩

/-- `validate_bbox` from `core.py`. -/
def validate_bbox (bbox : BoundingBox) : Bool :=
  if bbox.min_x ≥ bbox.max_x then false
  else if bbox.min_y ≥ bbox.max_y then false
  else true

/-- The pydantic construction invariant of `BoundingBox` (`validate_coordinates`
in `types.py`): `min_x < max_x` and `min_y < max_y`. -/
def BoundingBox.valid (bbox : BoundingBox) : Prop :=
  bbox.min_x < bbox.max_x ∧ bbox.min_y < bbox.max_y

/-- `bbox_intersects` from `core.py`: closed-box overlap test. -/
def bbox_intersects (bbox1 bbox2 : BoundingBox) : Bool :=
  ! (decide (bbox1.max_x < bbox2.min_x) ||
     decide (bbox1.min_x > bbox2.max_x) ||
     decide (bbox1.max_y < bbox2.min_y) ||
     decide (bbox1.min_y > bbox2.max_y))

/-- `BoundingBox.intersects` from `types.py`: strict (open-box) overlap test. -/
def BoundingBox.intersects (self other : BoundingBox) : Bool :=
  decide (self.min_x < other.max_x) &&
  decide (self.max_x > other.min_x) &&
  decide (self.min_y < other.max_y) &&
  decide (self.max_y > other.min_y)

/-- The configurations on which `bbox_intersects` and `BoundingBox.intersects`
can differ: the closed boxes overlap but only along a shared edge or corner
(some touching coordinates are equal). -/
def edgeTouchOnly (bbox1 bbox2 : BoundingBox) : Prop :=
  (bbox2.min_x ≤ bbox1.max_x ∧ bbox1.min_x ≤ bbox2.max_x ∧
   bbox2.min_y ≤ bbox1.max_y ∧ bbox1.min_y ≤ bbox2.max_y) ∧
  (bbox1.max_x = bbox2.min_x ∨ bbox1.min_x = bbox2.max_x ∨
   bbox1.max_y = bbox2.min_y ∨ bbox1.min_y = bbox2.max_y)

/-- Rendering of a rational coordinate into a query string, standing in for
Python's float formatting inside f-strings. -/
def ratRepr (q : ℚ) : String := toString q

/-- `WCSService._subset_axes` from `service/wcs.py`: fixed lookup from the
subsetting CRS to the two axis labels. -/
def subset_axes (crs : CRS) : String × String :=
  if crs = CRS.epsg27700 then ("E", "N")
  else if crs = CRS.epsg3857 then ("X", "Y")
  else ("Long", "Lat")

/-- `WCSService._format_subset` from `service/wcs.py`: the two axis subset
expressions `axis(min,max)` over the bbox. -/
def format_subset (bbox : BoundingBox) (crs : CRS) : List String :=
  let axes := subset_axes crs
  [axes.1 ++ "(" ++ ratRepr bbox.min_x ++ "," ++ ratRepr bbox.max_x ++ ")",
   axes.2 ++ "(" ++ ratRepr bbox.min_y ++ "," ++ ratRepr bbox.max_y ++ ")"]

/-- `TileGeometry` from `service/base.py`. Pixel sizes are `Nat`; the pydantic
field constraints (`gt=0`, bbox validity, bbox CRS agreement) are modelled by
`TileGeometry.pydanticValid`. -/
structure TileGeometry where
  bbox : BoundingBox
  width : Nat
  height : Nat
  crs : CRS := .epsg4326
deriving DecidableEq

/-- The pydantic validation run when a `TileGeometry` is constructed:
`width > 0`, `height > 0`, the `BoundingBox` coordinate invariant, and the
`ensure_bbox_crs` check that the bbox CRS matches the tile CRS. -/
def TileGeometry.pydanticValid (t : TileGeometry) : Bool :=
  decide (0 < t.width) && decide (0 < t.height) &&
  validate_bbox t.bbox && decide (t.bbox.crs = t.crs)

/-- A value of a query-parameter dict (`Dict[str, Any]` in the code): the WCS
adapter stores strings and, for `subset`, a list of strings. -/
inductive ParamValue where
  | str (s : String)
  | strList (l : List String)
deriving DecidableEq

/-- Python's `str()` applied to a parameter value (used by `_cache_key`):
strings render as themselves, lists via `repr` as `['a', 'b']`. -/
def ParamValue.pyStr : ParamValue → String
  | .str s => s
  | .strList l =>
    let q := String.singleton (Char.ofNat 39)
    "[" ++ String.intercalate ", " (l.map (fun s => q ++ s ++ q)) ++ "]"

/-- `TileRequest` from `types.py`. `params` is an association list in dict
insertion order. -/
structure TileRequest where
  url : String
  params : List (String × ParamValue)
  headers : Option (List (String × String)) := none
  timeout : Int := 30
  retries : Nat := 3
  output_format : Option Format := none
  crs : Option CRS := none
  bbox : Option BoundingBox := none
  width : Option Nat := none
  height : Option Nat := none
deriving DecidableEq

/-- `TileResponse` from `types.py`. `data` is the raw byte string. -/
structure TileResponse where
  data : List Nat
  content_type : String
  status_code : Int
  headers : List (String × String)
  url : String
  success : Bool
  error_message : Option String := none
deriving DecidableEq

/-- `_validate_grid_shape` from `array.py`. -/
def validate_grid_shape (grid : Int × Int) : Except String (Int × Int) :=
  if grid.1 ≤ 0 ∨ grid.2 ≤ 0 then .error "grid_shape must contain positive integers"
  else .ok grid

/-- One cell of the explicit-grid branch of `BaseService.plan_tiles`
(`service/base.py`): cell `(row, col)` of a `rows × cols` partition.
The `if` mirrors the code: the last row/column extends to the input's max
edge rather than to `min + (i+1)*step`. -/
def gridCell (bbox : BoundingBox) (rows cols : Nat) (width height : Nat)
    (row col : Nat) : TileGeometry :=
  let x_span := bbox.max_x - bbox.min_x
  let y_span := bbox.max_y - bbox.min_y
  let step_x := if 0 < cols then x_span / (cols : ℚ) else x_span
  let step_y := if 0 < rows then y_span / (rows : ℚ) else y_span
  { bbox :=
      { min_x := bbox.min_x + (col : ℚ) * step_x
        max_x := if col < cols - 1 then bbox.min_x + ((col : ℚ) + 1) * step_x else bbox.max_x
        min_y := bbox.min_y + (row : ℚ) * step_y
        max_y := if row < rows - 1 then bbox.min_y + ((row : ℚ) + 1) * step_y else bbox.max_y
        crs := bbox.crs }
    width := width
    height := height
    crs := bbox.crs }

/-- The list of tiles yielded by the explicit-grid branch of `plan_tiles`:
row-major, rows from south to north (the Python loops `for row in range(rows)`
/ `for col in range(cols)` with `min_y` increasing with `row`). -/
def gridTileList (bbox : BoundingBox) (rows cols : Nat) (width height : Nat) :
    List TileGeometry :=
  (List.range rows).flatMap fun row =>
    (List.range cols).map fun col => gridCell bbox rows cols width height row col

/-- One iteration axis of the resolution-driven branch of `plan_tiles`: walk
from `cur` towards `hi` in steps of `tile_units`, clipping the last cell to
`hi` and sizing its pixels as `max 1 ⌈span/res⌉`. Returns
`(cell_min, cell_max, pixel_size)` triples. `fuel` bounds the iteration count;
the Python `while` advances by `tile_units` per iteration, so the fuel chosen
by `plan_tiles` is sufficient whenever `tile_units > 0` (with a non-positive
chunk size the Python loop would not terminate at all). -/
def resolutionCells (lo hi tile_units res eps : ℚ) : Nat → ℚ → List (ℚ × ℚ × Nat)
  | 0, _ => []
  | fuel + 1, cur =>
    if cur < hi - eps then
      let cmax := min hi (cur + tile_units)
      let span := cmax - cur
      let pixels := max 1 (Int.ceil (span / res)).toNat
      (cur, cmax, pixels) :: resolutionCells lo hi tile_units res eps fuel cmax
    else []

/-- Fuel sufficient for `resolutionCells` when the step is positive. -/
def resolutionFuel (lo hi tile_units : ℚ) : Nat :=
  if 0 < tile_units then (Int.ceil ((hi - lo) / tile_units)).toNat + 2 else 0

/-- `BaseService.plan_tiles` from `service/base.py`, with the `options` dict
represented by its two consulted entries (`resolution`, `grid_shape`).
`chunk_size` unpacks as `(width, height)`. The generator is modelled as the
list of all yielded tiles; a pydantic validation error while yielding a tile
surfaces as an `Except.error`, as it would when the caller lists the
generator. -/
def plan_tiles (bbox : BoundingBox) (chunk_size : Nat × Nat)
    (resolution : Option (ℚ × ℚ)) (grid_shape : Option (Int × Int)) :
    Except String (List TileGeometry) :=
  let width := chunk_size.1
  let height := chunk_size.2
  match resolution with
  | some (res_x, res_y) =>
    if res_x ≤ 0 ∨ res_y ≤ 0 then .error "resolution values must be positive"
    else
      let tile_width_units := (width : ℚ) * res_x
      let tile_height_units := (height : ℚ) * res_y
      let epsilon := min res_x res_y / 10
      let yCells := resolutionCells bbox.min_y bbox.max_y tile_height_units res_y epsilon
        (resolutionFuel bbox.min_y bbox.max_y tile_height_units) bbox.min_y
      let tiles := yCells.flatMap fun ycell =>
        let xCells := resolutionCells bbox.min_x bbox.max_x tile_width_units res_x epsilon
          (resolutionFuel bbox.min_x bbox.max_x tile_width_units) bbox.min_x
        xCells.map fun xcell =>
          { bbox :=
              { min_x := xcell.1, max_x := xcell.2.1
                min_y := ycell.1, max_y := ycell.2.1
                crs := bbox.crs }
            width := xcell.2.2
            height := ycell.2.2
            crs := bbox.crs }
      if tiles.all TileGeometry.pydanticValid then .ok tiles
      else .error "TileGeometry validation failed"
  | none =>
    let grid := grid_shape.getD (1, 1)
    let rows := grid.1
    let cols := grid.2
    if rows ≤ 0 ∨ cols ≤ 0 then .error "grid_shape dimensions must be positive integers"
    else
      let tiles := gridTileList bbox rows.toNat cols.toNat width height
      if tiles.all TileGeometry.pydanticValid then .ok tiles
      else .error "TileGeometry validation failed"

/-- Python dict item assignment `d[k] = v` on an insertion-ordered dict: an
existing key keeps its position and gets the new value, a new key is appended. -/
def dictSet (d : List (String × ParamValue)) (k : String) (v : ParamValue) :
    List (String × ParamValue) :=
  if d.any (fun p => p.1 = k) then d.map (fun p => if p.1 = k then (k, v) else p)
  else d ++ [(k, v)]

/-- Python `dict.update`: last-write-wins, key by key. -/
def dictUpdate (d extra : List (String × ParamValue)) : List (String × ParamValue) :=
  extra.foldl (fun acc p => dictSet acc p.1 p.2) d

/-- Dict lookup `d.get(k)`. -/
def dictGet (d : List (String × ParamValue)) (k : String) : Option ParamValue :=
  (d.find? (fun p => p.1 = k)).map (·.2)

/-- Python `a or b` on optional strings, where an empty string is falsy
(`options.get("coverage_id") or self.coverage_id`). -/
def firstTruthy (a b : Option String) : Option String :=
  match a with
  | some s => if s = "" then b else some s
  | none => b

/-- The configured state of `WCSService` from `service/wcs.py` (the fields
`build_tile_request` reads). -/
structure WCSService where
  base_url : String
  version : String := "2.0.1"
  coverage_id : Option String := none
  output_format : Format := .geotiff
  subsetting_crs : CRS := .epsg4326

/-- The `**options` entries consulted by `generate_tile_requests` /
`plan_tiles` / `build_tile_request`. -/
structure BuildOptions where
  coverage_id : Option String := none
  output_format : Option Format := none
  crs : Option CRS := none
  params : Option (List (String × ParamValue)) := none
  grid_shape : Option (Int × Int) := none
  resolution : Option (ℚ × ℚ) := none

/-- `WCSService.build_tile_request` from `service/wcs.py`. -/
def WCSService.build_tile_request (self : WCSService) (tile : TileGeometry)
    (options : BuildOptions) : Except String TileRequest :=
  let coverage := firstTruthy options.coverage_id self.coverage_id
  match coverage with
  | none => .error "WCS coverage_id must be provided"
  | some c =>
    if c = "" then .error "WCS coverage_id must be provided"
    else
      let fmt := options.output_format.getD self.output_format
      let crs := options.crs.getD tile.crs
      let subset_parts := format_subset tile.bbox crs
      let params : List (String × ParamValue) :=
        [("service", .str "WCS"),
         ("version", .str self.version),
         ("request", .str "GetCoverage"),
         ("coverageId", .str c),
         ("subset", .strList subset_parts),
         ("format", .str fmt.value),
         ("width", .str (toString tile.width)),
         ("height", .str (toString tile.height)),
         ("subsettingCRS", .str crs.value)]
      let params := match options.params with
        | some extra => dictUpdate params extra
        | none => params
      .ok { url := self.base_url
            params := params
            output_format := some fmt
            crs := some crs
            bbox := some tile.bbox
            width := some tile.width
            height := some tile.height }

/-- `BaseService.generate_tile_requests` from `service/base.py`: list the
planned tiles, then build one request per tile. Listing the plan forces the
generator, so a planning error surfaces before any request is built. -/
def generate_tile_requests (self : WCSService) (bbox : BoundingBox)
    (chunk_size : Nat × Nat) (options : BuildOptions) :
    Except String (List TileRequest) := do
  let tile_geoms ← plan_tiles bbox chunk_size options.resolution options.grid_shape
  tile_geoms.mapM (fun tile_geom => self.build_tile_request tile_geom options)

/-- The Python sort key `(-bbox.max_y, bbox.min_x)` used by `_organize_tiles`. -/
def tileSortKey (bbox : BoundingBox) : ℚ × ℚ := (-bbox.max_y, bbox.min_x)

/-- Python's lexicographic `≤` on pairs (tuple comparison). -/
def tupleLe (a b : ℚ × ℚ) : Bool :=
  decide (a.1 < b.1) || (decide (a.1 = b.1) && decide (a.2 ≤ b.2))

/-- The comparison `_organize_tiles` sorts with. A missing bbox is impossible
at this point (checked beforehand); `getD` supplies a dummy. -/
def tileRequestLe (a b : TileRequest) : Bool :=
  tupleLe (tileSortKey (a.bbox.getD default)) (tileSortKey (b.bbox.getD default))

/-- Slicing a flat sorted list into `rows` consecutive groups of `cols`
(the nested `for` loop with a running index in `_organize_tiles`). -/
def chunkRows (cols : Nat) : Nat → List TileRequest → List (List TileRequest)
  | 0, _ => []
  | rows + 1, l => l.take cols :: chunkRows cols rows (l.drop cols)

/-- `_organize_tiles` from `array.py`: validate the count, require a bbox on
every request, sort by descending `max_y` then ascending `min_x` (Python's
stable `sorted`, modelled by `List.mergeSort`), and slice into rows. -/
def organize_tiles (tile_requests : List TileRequest) (rows cols : Nat) :
    Except String (List (List TileRequest)) :=
  if tile_requests.length ≠ rows * cols then
    .error ("Service produced " ++ toString tile_requests.length ++
      " tile requests; expected " ++ toString (rows * cols))
  else if tile_requests.any (fun r => r.bbox.isNone) then
    .error "TileRequest is missing spatial metadata (bbox)"
  else
    let sorted_tiles := tile_requests.mergeSort tileRequestLe
    .ok (chunkRows cols rows sorted_tiles)

/-- A cell of a decoded tile array: a float, with `none` standing for `NaN`. -/
abbrev Val : Type := Option ℚ

/-- A dense 2-D numpy array: a list of rows. -/
abbrev Mat : Type := List (List Val)

/-- `array.shape[0]`. -/
def matHeight (m : Mat) : Nat := m.length

/-- `array.shape[1]` (rows of a numpy array all have this length). -/
def matWidth (m : Mat) : Nat := (m.headD []).length

/-- Rectangularity of the list-of-rows representation. -/
def matWellFormed (m : Mat) : Prop := ∀ row ∈ m, row.length = matWidth m

/-- Element access `m[i][j]` (in-bounds under `matWellFormed` and shape). -/
def matGet (m : Mat) (i j : Nat) : Val := (m.getD i []).getD j none

/-- IEEE addition restricted to this pipeline: `NaN` propagates. -/
def vAdd (a b : Val) : Val :=
  match a, b with
  | some x, some y => some (x + y)
  | _, _ => none

/-- Division of a cell value by a (positive) count; `NaN` propagates. -/
def vDiv (a : Val) (n : Nat) : Val := a.map (· / (n : ℚ))

/-- A constant `h × w` matrix. -/
def constMat (h w : Nat) (v : Val) : Mat := List.replicate h (List.replicate w v)

/-- `np.full((h, w), np.nan)`. -/
def nanFull (h w : Nat) : Mat := constMat h w none

/-- The mean of one `(factor_y, factor_x)` block with top-left multiplied
index `(i, j)`: entry `(i, j)` of
`array.reshape(th, factor_y, tw, factor_x).mean(axis=(1, 3))`. -/
def blockMeanCell (m : Mat) (factor_y factor_x i j : Nat) : Val :=
  let s := (List.range factor_y).foldl (fun acc dy =>
    (List.range factor_x).foldl (fun acc2 dx =>
      vAdd acc2 (matGet m (i * factor_y + dy) (j * factor_x + dx))) acc) (some 0)
  vDiv s (factor_y * factor_x)

/-- The full block-mean reduction to a `th × tw` result. -/
def blockMean (m : Mat) (th tw factor_y factor_x : Nat) : Mat :=
  (List.range th).map fun i =>
    (List.range tw).map fun j => blockMeanCell m factor_y factor_x i j

/-- `_downsample_array` from `array.py`. Target sizes are `Nat`, so the
code's `target <= 0` check reads `target = 0`. -/
def downsample_array (array : Mat) (target_height target_width : Nat) :
    Except String Mat :=
  let actual_height := matHeight array
  let actual_width := matWidth array
  if actual_height = target_height ∧ actual_width = target_width then .ok array
  else if target_height = 0 ∨ target_width = 0 then
    .error "target dimensions must be positive"
  else if actual_height < target_height ∨ actual_width < target_width then
    .error ("Decoded tile has shape (" ++ toString actual_height ++ ", " ++
      toString actual_width ++ "), expected at least (" ++
      toString target_height ++ ", " ++ toString target_width ++ ")")
  else if actual_height % target_height ≠ 0 ∨ actual_width % target_width ≠ 0 then
    .error "Decoded tile dimensions are not evenly divisible by requested chunk size"
  else
    let factor_y := actual_height / target_height
    let factor_x := actual_width / target_width
    .ok (blockMean array target_height target_width factor_y factor_x)

/-- Python `x or d` where `x` is an optional int and `0` is falsy
(`request.height or 0`, `request.height or array.shape[0]`). -/
def pyOrNat (x : Option Nat) (d : Nat) : Nat :=
  match x with
  | some n => if n = 0 then d else n
  | none => d

/-- A tile decoder (`TileDecoder` in `array.py`); a Python decode exception is
an `Except.error`. Decoders in this model always return 2-D arrays, so the
code's `array.ndim != 2` re-check has no failing case here. -/
def TileDecoder : Type := TileResponse → TileRequest → Except String Mat

/-- `_load_tile_array` from `array.py`, with the result of
`_fetch_with_cache(request, cache_dir)` passed in as `response`. The final
`np.asarray(array, dtype=dtype)` conversion is the identity in this model. -/
def load_tile_array (request : TileRequest) (response : TileResponse)
    (decoder : TileDecoder) : Except String Mat :=
  if response.success = false then
    let height := pyOrNat request.height 0
    let width := pyOrNat request.width 0
    .ok (nanFull height width)
  else do
    let array ← decoder response request
    let target_height := pyOrNat request.height (matHeight array)
    let target_width := pyOrNat request.width (matWidth array)
    downsample_array array target_height target_width

/-- The outcome the network offers to one `requests.get` call inside
`fetch_tile`: either an HTTP response (any status) or a transport error
(`requests.RequestException`). -/
inductive HttpAttempt where
  | response (status_code : Int) (data : List Nat) (text : String)
      (content_type : String) (headers : List (String × String)) (url : String)
  | transportError (msg : String)

/-- Whether an attempt outcome is an HTTP 200 success. -/
def HttpAttempt.isSuccess : HttpAttempt → Bool
  | .response status_code _ _ _ _ _ => status_code = 200
  | .transportError _ => false

/-- The retry loop of `fetch_tile` (`for attempt in range(request.retries + 1)`),
with `fuel` the number of remaining loop iterations and `attempt` the current
index. `last_exception` threads the variable of the same name for the
unreachable fallback return after the loop. -/
def fetchLoop (request : TileRequest) (attempts : Nat → HttpAttempt)
    (last_exception : Option String) : Nat → Nat → TileResponse
  | 0, _ =>
    { data := [], content_type := "", status_code := 0, headers := [],
      url := request.url, success := false,
      error_message := some ("All retry attempts failed: " ++
        toString last_exception) }
  | fuel + 1, attempt =>
    match attempts attempt with
    | .response status_code data text content_type headers url =>
      if status_code = 200 then
        { data := data, content_type := content_type, status_code := status_code,
          headers := headers, url := url, success := true, error_message := none }
      else
        let error_msg := "HTTP " ++ toString status_code ++ ": " ++ (text.take 200)
        if attempt = request.retries then
          { data := [], content_type := content_type, status_code := status_code,
            headers := headers, url := url, success := false,
            error_message := some error_msg }
        else fetchLoop request attempts last_exception fuel (attempt + 1)
    | .transportError msg =>
      if attempt = request.retries then
        { data := [], content_type := "", status_code := 0, headers := [],
          url := request.url, success := false,
          error_message := some ("Network error: " ++ msg) }
      else fetchLoop request attempts (some msg) fuel (attempt + 1)

/-- `fetch_tile` from `tiles.py`: validate the request, then run up to
`retries + 1` attempts. `attempts` supplies the outcome of each network call.
The `ValueError`s for a missing URL / missing params are `Except.error`;
ordinary HTTP or network failure never is. -/
def fetch_tile (request : TileRequest) (attempts : Nat → HttpAttempt) :
    Except String TileResponse :=
  if request.url = "" then .error "URL is required"
  else if request.params = [] then .error "Request parameters are required"
  else .ok (fetchLoop request attempts none (request.retries + 1) 0)

/-- `_fetch_with_cache` from `array.py`. The filesystem and network are
oracles: `cached` is what `_read_cache` finds under the request's cache key,
`fetch_result` the `TileResponse` produced by `fetch_tile` (which does not
raise for a well-formed request), and `write_result` the outcome of
`_write_cache`, whose exception — there is no try/except around it —
propagates. -/
def fetch_with_cache (request : TileRequest) (cache_dir : Option String)
    (cached : Option (List Nat)) (fetch_result : TileResponse)
    (write_result : Except String Unit) : Except String TileResponse :=
  match cache_dir, cached with
  | some _, some data =>
    .ok { data := data
          content_type := (request.output_format.map Format.value).getD ""
          status_code := 200, headers := [], url := request.url
          success := true, error_message := none }
  | _, _ =>
    let response := fetch_result
    if cache_dir.isSome ∧ response.success = true ∧ response.data ≠ [] then do
      write_result
      .ok response
    else .ok response

/-- JSON string escaping as performed by `json.dumps` (quote and backslash;
no other escape-worthy characters occur in the hashed fields). -/
def jsonEscape (s : String) : String :=
  s.foldl (fun acc c =>
    if c = Char.ofNat 34 then acc ++ "\\" ++ String.singleton (Char.ofNat 34)
    else if c = Char.ofNat 92 then acc ++ "\\\\"
    else acc ++ String.singleton c) ""

/-- A JSON string literal. -/
def jsonStr (s : String) : String := "\"" ++ jsonEscape s ++ "\""

/-- JSON for an optional int field (`width` / `height`): the number or `null`. -/
def jsonOptNat (n : Option Nat) : String :=
  match n with
  | some k => toString k
  | none => "null"

/-- `json.dumps(request.bbox.model_dump(), sort_keys=True)`: the bbox dict with
its keys in sorted order (`crs, max_x, max_y, min_x, min_y`), or `null`. -/
def jsonBBox (bbox : Option BoundingBox) : String :=
  match bbox with
  | some b =>
    "\x7b\"crs\": " ++ jsonStr b.crs.value ++
    ", \"max_x\": " ++ ratRepr b.max_x ++
    ", \"max_y\": " ++ ratRepr b.max_y ++
    ", \"min_x\": " ++ ratRepr b.min_x ++
    ", \"min_y\": " ++ ratRepr b.min_y ++ "\x7d"
  | none => "null"

/-- Python's lexicographic `≤` on `(str, str)` tuples, used by
`sorted((str(k), str(v)) for k, v in request.params.items())`. -/
def strPairLe (a b : String × String) : Bool :=
  decide (a.1 < b.1) || (decide (a.1 = b.1) && decide (a.2 ≤ b.2))

/-- The sorted `(str(k), str(v))` parameter pairs of `_cache_key`. -/
def sortedParamPairs (request : TileRequest) : List (String × String) :=
  (request.params.map (fun p => (p.1, p.2.pyStr))).mergeSort strPairLe

/-- The canonical serialization hashed by `_cache_key` (`array.py`):
`json.dumps(payload, sort_keys=True)` for the payload dict
`{url, params, format, bbox, width, height}`. `sort_keys=True` is realized by
emitting the keys in sorted order
(`bbox, format, height, params, url, width`); tuples serialize as JSON
arrays. -/
def cache_key_payload (request : TileRequest) : String :=
  let params := sortedParamPairs request
  let fmt := match request.output_format with
    | some f => jsonStr f.value
    | none => "null"
  "\x7b\"bbox\": " ++ jsonBBox request.bbox ++
  ", \"format\": " ++ fmt ++
  ", \"height\": " ++ jsonOptNat request.height ++
  ", \"params\": [" ++
    String.intercalate ", "
      (params.map (fun p => "[" ++ jsonStr p.1 ++ ", " ++ jsonStr p.2 ++ "]")) ++
  "], \"url\": " ++ jsonStr request.url ++
  ", \"width\": " ++ jsonOptNat request.width ++ "\x7d"

/-! SHA-256 over byte lists, standing in for `hashlib.sha256`. Machine words
are `Nat` reduced mod `2^32`. -/

/-- Truncation to a 32-bit word. -/
def w32 (n : Nat) : Nat := n % 4294967296

/-- 32-bit right rotation. -/
def rotr32 (n b : Nat) : Nat := w32 ((n >>> b) ||| (n <<< (32 - b)))

/-- 32-bit complement. -/
def not32 (n : Nat) : Nat := n ^^^ 4294967295

def sha256K : List Nat :=
  [1116352408, 1899447441, 3049323471, 3921009573, 961987163, 1508970993, 2453635748, 2870763221,
   3624381080, 310598401, 607225278, 1426881987, 1925078388, 2162078206, 2614888103, 3248222580,
   3835390401, 4022224774, 264347078, 604807628, 770255983, 1249150122, 1555081692, 1996064986,
   2554220882, 2821834349, 2952996808, 3210313671, 3336571891, 3584528711, 113926993, 338241895,
   666307205, 773529912, 1294757372, 1396182291, 1695183700, 1986661051, 2177026350, 2456956037,
   2730485921, 2820302411, 3259730800, 3345764771, 3516065817, 3600352804, 4094571909, 275423344,
   430227734, 506948616, 659060556, 883997877, 958139571, 1322822218, 1537002063, 1747873779,
   1955562222, 2024104815, 2227730452, 2361852424, 2428436474, 2756734187, 3204031479, 3329325298]

def sha256H0 : List Nat :=
  [1779033703, 3144134277, 1013904242, 2773480762, 1359893119, 2600822924, 528734635, 1541459225]

/-- Merkle–Damgård padding: `0x80`, zeros, then the bit length as 8 bytes
big-endian, to a multiple of 64 bytes. -/
def sha256Pad (msg : List Nat) : List Nat :=
  let len := msg.length
  let r := (len + 1) % 64
  let zeros := if r ≤ 56 then 56 - r else 120 - r
  msg ++ [128] ++ List.replicate zeros 0 ++
    (List.range 8).map (fun i => ((8 * len) >>> (8 * (7 - i))) % 256)

/-- Split a padded message into 64-byte blocks. -/
def chunks64 (l : List Nat) : List (List Nat) :=
  if h : l = [] then []
  else l.take 64 :: chunks64 (l.drop 64)
termination_by l.length
decreasing_by
  simp only [List.length_drop]
  have hl : 0 < l.length := List.length_pos.mpr h
  omega

/-- The 64-word message schedule of one block. -/
def scheduleWords (block : List Nat) : List Nat :=
  let w16 := (List.range 16).map (fun i =>
    (block.getD (4 * i) 0) * 16777216 + (block.getD (4 * i + 1) 0) * 65536 +
    (block.getD (4 * i + 2) 0) * 256 + block.getD (4 * i + 3) 0)
  (List.range 48).foldl (fun w _ =>
    let n := w.length
    let s0 := (rotr32 (w.getD (n - 15) 0) 7) ^^^ (rotr32 (w.getD (n - 15) 0) 18) ^^^
      ((w.getD (n - 15) 0) >>> 3)
    let s1 := (rotr32 (w.getD (n - 2) 0) 17) ^^^ (rotr32 (w.getD (n - 2) 0) 19) ^^^
      ((w.getD (n - 2) 0) >>> 10)
    w ++ [w32 ((w.getD (n - 16) 0) + s0 + (w.getD (n - 7) 0) + s1)]) w16

/-- One SHA-256 compression step over a 64-byte block. -/
def sha256Compress (state block : List Nat) : List Nat :=
  let w := scheduleWords block
  let final := (List.range 64).foldl (fun s i =>
    match s with
    | [a, b, c, d, e, f, g, h] =>
      let bigS1 := (rotr32 e 6) ^^^ (rotr32 e 11) ^^^ (rotr32 e 25)
      let ch := (e &&& f) ^^^ ((not32 e) &&& g)
      let t1 := w32 (h + bigS1 + ch + sha256K.getD i 0 + w.getD i 0)
      let bigS0 := (rotr32 a 2) ^^^ (rotr32 a 13) ^^^ (rotr32 a 22)
      let maj := (a &&& b) ^^^ (a &&& c) ^^^ (b &&& c)
      let t2 := w32 (bigS0 + maj)
      [w32 (t1 + t2), a, b, c, w32 (d + t1), e, f, g]
    | other => other) state
  List.zipWith (fun x y => w32 (x + y)) state final

/-- A hexadecimal digit character. -/
def hexDigit (n : Nat) : Char := "0123456789abcdef".toList.getD n (Char.ofNat 48)

/-- Eight lowercase hex characters of one 32-bit word. -/
def toHex8 (n : Nat) : String :=
  (List.range 8).foldl (fun acc i =>
    acc ++ String.singleton (hexDigit ((n >>> (4 * (7 - i))) % 16))) ""

/-- UTF-8 bytes of a string (`serialized.encode("utf-8")`). -/
def strToBytes (s : String) : List Nat := s.toUTF8.toList.map (fun b => b.toNat)

/-- `hashlib.sha256(bytes).hexdigest()`. -/
def sha256hex (msg : List Nat) : String :=
  let blocks := chunks64 (sha256Pad msg)
  let digest := blocks.foldl sha256Compress sha256H0
  digest.foldl (fun acc wrd => acc ++ toHex8 wrd) ""

/-- `_cache_key` from `array.py`. -/
def cache_key (request : TileRequest) : String :=
  sha256hex (strToBytes (cache_key_payload request))

/-- A point strictly inside a bounding box (interior membership). -/
def strictlyInside (b : BoundingBox) (x y : ℚ) : Prop :=
  b.min_x < x ∧ x < b.max_x ∧ b.min_y < y ∧ y < b.max_y

/-- A unit-square tile request (concrete instances below). -/
def unitTile (x0 y0 x1 y1 : ℚ) : TileRequest :=
  { url := "https://example.com/wcs"
    params := [("service", .str "WCS")]
    bbox := some { min_x := x0, min_y := y0, max_x := x1, max_y := y1, crs := .epsg4326 } }

/-- North-west unit square of the bbox `(0,0,2,2)`. -/
def tileNW : TileRequest := unitTile 0 1 1 2

/-- North-east unit square of the bbox `(0,0,2,2)`. -/
def tileNE : TileRequest := unitTile 1 1 2 2

/-- South-west unit square of the bbox `(0,0,2,2)`. -/
def tileSW : TileRequest := unitTile 0 0 1 1

/-- South-east unit square of the bbox `(0,0,2,2)`. -/
def tileSE : TileRequest := unitTile 1 0 2 1

/-- A decoder whose decode raises (`Except.error`). -/
def failingDecoder : TileDecoder := fun _ _ => .error "decode failed"

/-- A successful fetch response carrying non-empty payload bytes. -/
def okTiffResponse : TileResponse :=
  { data := [73, 73, 42, 0], content_type := "image/tiff", status_code := 200,
    headers := [], url := "https://example.com/wcs", success := true }

/-- A small tile request asking for a 1×1 pixel tile. -/
def smallTileRequest : TileRequest :=
  { url := "https://example.com/wcs"
    params := [("service", .str "WCS")]
    output_format := some .geotiff
    bbox := some default
    width := some 1
    height := some 1 }

/-! ## Theorems -/

/-- C10 counterexample: on two valid boxes sharing only the edge `x = 1`, the
free function `bbox_intersects` returns `true` while the method
`BoundingBox.intersects` returns `false`, so they do not agree on boxes that
touch only along a shared edge. -/
theorem bbox_intersects_method_disagree_cex :
    validate_bbox ⟨0, 0, 1, 1, .epsg4326⟩ = true
    ∧ validate_bbox ⟨1, 0, 2, 1, .epsg4326⟩ = true
    ∧ bbox_intersects ⟨0, 0, 1, 1, .epsg4326⟩ ⟨1, 0, 2, 1, .epsg4326⟩ = true
    ∧ BoundingBox.intersects ⟨0, 0, 1, 1, .epsg4326⟩ ⟨1, 0, 2, 1, .epsg4326⟩ = false := by
  decide

/-- C10 (amended): `b1.intersects b2` implies `bbox_intersects b1 b2`, and the
two predicates differ exactly on pairs of boxes whose closed extents overlap
only along a shared edge or corner, where `bbox_intersects` answers `true`
and `intersects` answers `false`. -/
theorem bbox_intersects_vs_intersects :
    ∀ bbox1 bbox2 : BoundingBox,
      (BoundingBox.intersects bbox1 bbox2 = true → bbox_intersects bbox1 bbox2 = true)
      ∧ (bbox_intersects bbox1 bbox2 = true ∧ BoundingBox.intersects bbox1 bbox2 = false
          ↔ edgeTouchOnly bbox1 bbox2) := by
  intro b1 b2
  have hf : bbox_intersects b1 b2 = true ↔
      (b2.min_x ≤ b1.max_x ∧ b1.min_x ≤ b2.max_x ∧
       b2.min_y ≤ b1.max_y ∧ b1.min_y ≤ b2.max_y) := by
    simp only [bbox_intersects, Bool.not_eq_true', Bool.or_eq_false_iff,
      decide_eq_false_iff_not, not_lt, gt_iff_lt]
    tauto
  have hm : BoundingBox.intersects b1 b2 = true ↔
      (b1.min_x < b2.max_x ∧ b2.min_x < b1.max_x ∧
       b1.min_y < b2.max_y ∧ b2.min_y < b1.max_y) := by
    simp only [BoundingBox.intersects, Bool.and_eq_true, decide_eq_true_eq, gt_iff_lt]
    tauto
  have hm' : BoundingBox.intersects b1 b2 = false ↔
      ¬ (b1.min_x < b2.max_x ∧ b2.min_x < b1.max_x ∧
         b1.min_y < b2.max_y ∧ b2.min_y < b1.max_y) := by
    rw [← hm]
    cases BoundingBox.intersects b1 b2 <;> simp
  constructor
  · intro h
    rw [hm] at h
    rw [hf]
    obtain ⟨h1, h2, h3, h4⟩ := h
    exact ⟨le_of_lt h2, le_of_lt h1, le_of_lt h4, le_of_lt h3⟩
  · rw [hf, hm']
    unfold edgeTouchOnly
    constructor
    · rintro ⟨⟨f1, f2, f3, f4⟩, hnm⟩
      refine ⟨⟨f1, f2, f3, f4⟩, ?_⟩
      by_contra hno
      push_neg at hno
      obtain ⟨n1, n2, n3, n4⟩ := hno
      exact hnm ⟨lt_of_le_of_ne f2 n2, lt_of_le_of_ne f1 (fun he => n1 he.symm),
        lt_of_le_of_ne f4 n4, lt_of_le_of_ne f3 (fun he => n3 he.symm)⟩
    · rintro ⟨⟨f1, f2, f3, f4⟩, ht⟩
      refine ⟨⟨f1, f2, f3, f4⟩, ?_⟩
      rintro ⟨m1, m2, m3, m4⟩
      rcases ht with h | h | h | h <;> linarith

/-- Witness for `bbox_intersects_vs_intersects` at concrete boxes: an
overlapping pair through the implication, and an edge-touching pair through
the backward direction of the equivalence. -/
theorem bbox_intersects_vs_intersects_witness :
    bbox_intersects ⟨0, 0, 2, 2, .epsg4326⟩ ⟨1, 1, 3, 3, .epsg4326⟩ = true
    ∧ bbox_intersects ⟨0, 0, 1, 1, .epsg4326⟩ ⟨1, 0, 2, 1, .epsg4326⟩ = true :=
  ⟨(bbox_intersects_vs_intersects ⟨0, 0, 2, 2, .epsg4326⟩ ⟨1, 1, 3, 3, .epsg4326⟩).1
      (by decide),
   ((bbox_intersects_vs_intersects ⟨0, 0, 1, 1, .epsg4326⟩ ⟨1, 0, 2, 1, .epsg4326⟩).2.mpr
      (by refine ⟨⟨?_, ?_, ?_, ?_⟩, Or.inl ?_⟩ <;> norm_num)).1⟩

/-- C9: the WCS adapter's two subset expressions use axis labels given by a
fixed lookup on the subsetting CRS alone — `E`/`N` for EPSG:27700, `X`/`Y`
for EPSG:3857, `Long`/`Lat` for every other CRS — each formatted as
`axis(min,max)` over the tile bbox, and `build_tile_request` puts exactly
these two expressions in the `subset` query parameter. -/
theorem wcs_subset_axes_fixed_lookup :
    subset_axes CRS.epsg27700 = ("E", "N")
    ∧ subset_axes CRS.epsg3857 = ("X", "Y")
    ∧ (∀ crs : CRS, crs ≠ CRS.epsg27700 → crs ≠ CRS.epsg3857 →
        subset_axes crs = ("Long", "Lat"))
    ∧ (∀ (bbox : BoundingBox) (crs : CRS),
        format_subset bbox crs =
          [(subset_axes crs).1 ++ "(" ++ ratRepr bbox.min_x ++ "," ++ ratRepr bbox.max_x ++ ")",
           (subset_axes crs).2 ++ "(" ++ ratRepr bbox.min_y ++ "," ++ ratRepr bbox.max_y ++ ")"])
    ∧ (∀ (self : WCSService) (tile : TileGeometry) (options : BuildOptions)
        (req : TileRequest),
        options.params = none →
        self.build_tile_request tile options = .ok req →
        dictGet req.params "subset" =
          some (.strList (format_subset tile.bbox (options.crs.getD tile.crs)))) := by
  refine ⟨rfl, rfl, ?_, fun bbox crs => rfl, ?_⟩
  · intro crs h1 h2
    cases crs <;> simp_all [subset_axes]
  · intro self tile options req hp hb
    unfold WCSService.build_tile_request at hb
    cases hcov : firstTruthy options.coverage_id self.coverage_id with
    | none => rw [hcov] at hb; exact absurd hb (by simp)
    | some c =>
      rw [hcov] at hb
      by_cases hc : c = ""
      · simp [hc] at hb
      · simp only [hc, if_false, hp] at hb
        cases hb
        simp [dictGet, List.find?]

/-- Witness for `wcs_subset_axes_fixed_lookup`: the geographic fallback at
EPSG:4326, and the `subset` parameter of a concretely built request. -/
theorem wcs_subset_axes_fixed_lookup_witness :
    subset_axes CRS.epsg4326 = ("Long", "Lat")
    ∧ dictGet
        [("service", ParamValue.str "WCS"), ("version", .str "2.0.1"),
         ("request", .str "GetCoverage"), ("coverageId", .str "cov"),
         ("subset", .strList (format_subset default CRS.epsg4326)),
         ("format", .str Format.geotiff.value), ("width", .str "1"),
         ("height", .str "1"), ("subsettingCRS", .str CRS.epsg4326.value)]
        "subset" = some (.strList (format_subset default CRS.epsg4326)) := by
  constructor
  · exact wcs_subset_axes_fixed_lookup.2.2.1 CRS.epsg4326 (by decide) (by decide)
  · exact wcs_subset_axes_fixed_lookup.2.2.2.2
      { base_url := "https://example.com/wcs", coverage_id := some "cov" }
      { bbox := default, width := 1, height := 1, crs := .epsg4326 }
      {} _ rfl rfl

/-! ### Block-mean helper lemmas -/

theorem getD_replicate {α : Type} (n : Nat) (a d : α) (i : Nat) (h : i < n) :
    (List.replicate n a).getD i d = a := by
  simp [List.getD, List.getElem?_replicate, h]

theorem matGet_constMat (h w i j : Nat) (v : Val) (hi : i < h) (hj : j < w) :
    matGet (constMat h w v) i j = v := by
  simp only [matGet, constMat]
  rw [getD_replicate h _ _ i hi, getD_replicate w _ _ j hj]

theorem matHeight_constMat (h w : Nat) (v : Val) : matHeight (constMat h w v) = h := by
  simp [matHeight, constMat]

theorem matWidth_constMat (h w : Nat) (v : Val) (hh : 0 < h) :
    matWidth (constMat h w v) = w := by
  cases h with
  | zero => omega
  | succ k => simp [matWidth, constMat, List.replicate_succ]

theorem foldl_vAdd_const (v : ℚ) (f : Nat → Val) :
    ∀ (n : Nat) (acc : ℚ), (∀ k < n, f k = some v) →
      (List.range n).foldl (fun a k => vAdd a (f k)) (some acc) =
        some (acc + n * v) := by
  intro n
  induction n with
  | zero => intro acc _; simp
  | succ m ih =>
    intro acc hf
    rw [List.range_succ, List.foldl_append]
    rw [ih acc (fun k hk => hf k (Nat.lt_succ_of_lt hk))]
    simp only [List.foldl_cons, List.foldl_nil, hf m (Nat.lt_succ_self m), vAdd]
    congr 1
    push_cast
    ring

theorem foldl_some_add (c : ℚ) (G : Val → Nat → Val) :
    ∀ (n : Nat) (acc : ℚ), (∀ (a : ℚ) k, k < n → G (some a) k = some (a + c)) →
      (List.range n).foldl G (some acc) = some (acc + n * c) := by
  intro n
  induction n with
  | zero => intro acc _; simp
  | succ m ih =>
    intro acc hG
    rw [List.range_succ, List.foldl_append]
    rw [ih acc (fun a k hk => hG a k (Nat.lt_succ_of_lt hk))]
    simp only [List.foldl_cons, List.foldl_nil]
    rw [hG _ m (Nat.lt_succ_self m)]
    congr 1
    push_cast
    ring

theorem blockMeanCell_constMat (h w fy fx i j : Nat) (v : ℚ)
    (hfy : 0 < fy) (hfx : 0 < fx)
    (hi : (i + 1) * fy ≤ h) (hj : (j + 1) * fx ≤ w) :
    blockMeanCell (constMat h w (some v)) fy fx i j = some v := by
  have hget : ∀ dy dx, dy < fy → dx < fx →
      matGet (constMat h w (some v)) (i * fy + dy) (j * fx + dx) = some v := by
    intro dy dx hdy hdx
    apply matGet_constMat
    · calc i * fy + dy < i * fy + fy := by omega
        _ = (i + 1) * fy := by ring
        _ ≤ h := hi
    · calc j * fx + dx < j * fx + fx := by omega
        _ = (j + 1) * fx := by ring
        _ ≤ w := hj
  unfold blockMeanCell
  have houter :
      (List.range fy).foldl
        (fun acc dy =>
          (List.range fx).foldl
            (fun acc2 dx => vAdd acc2 (matGet (constMat h w (some v)) (i * fy + dy) (j * fx + dx)))
            acc)
        (some 0) = some (0 + (fy : ℚ) * ((fx : ℚ) * v)) := by
    apply foldl_some_add ((fx : ℚ) * v)
    intro a dy hdy
    exact foldl_vAdd_const v _ fx a (fun dx hdx => hget dy dx hdy hdx)
  rw [houter]
  simp only [vDiv, Option.map_some]
  have hfy0 : (fy : ℚ) ≠ 0 := Nat.cast_ne_zero.mpr (by omega)
  have hfx0 : (fx : ℚ) ≠ 0 := Nat.cast_ne_zero.mpr (by omega)
  push_cast
  field_simp
  ring

theorem map_range_const {β : Type} (n : Nat) (f : Nat → β) (b : β)
    (h : ∀ i < n, f i = b) : (List.range n).map f = List.replicate n b := by
  induction n with
  | zero => simp
  | succ m ih =>
    rw [List.range_succ, List.map_append, ih (fun i hi => h i (Nat.lt_succ_of_lt hi))]
    simp [h m (Nat.lt_succ_self m), List.replicate_succ']

theorem blockMean_constMat (th tw fy fx : Nat) (v : ℚ)
    (hfy : 0 < fy) (hfx : 0 < fx) :
    blockMean (constMat (th * fy) (tw * fx) (some v)) th tw fy fx =
      constMat th tw (some v) := by
  unfold blockMean constMat
  rw [map_range_const th _ (List.replicate tw (some v))]
  intro i hi
  rw [map_range_const tw _ (some v)]
  intro j hj
  apply blockMeanCell_constMat
  · exact hfy
  · exact hfx
  · exact Nat.mul_le_mul_right fy hi
  · exact Nat.mul_le_mul_right fx hj

/-- C4: `_downsample_array` returns an exact-shape array unchanged; when the
decoded shape is a strict integer multiple of a positive target shape in both
axes it returns the block mean over `(factor_y, factor_x)` blocks — in
particular a uniform `16×16` array of value `v` downsampled to `8×8` is the
uniform `8×8` array of `v`; for every decoded array whose dimensions are at
least the (positive) target's but not both integer multiples of it — e.g.
`15×16` against `8×8` — the downsampler raises the fatal shape error, and a
decoded dimension smaller than the target is a fatal shape error. -/
theorem downsample_array_spec :
    (∀ (array : Mat) (th tw : Nat),
        matHeight array = th → matWidth array = tw →
        downsample_array array th tw = .ok array)
    ∧ (∀ (array : Mat) (th tw : Nat),
        0 < th → 0 < tw →
        ¬ (matHeight array = th ∧ matWidth array = tw) →
        matHeight array % th = 0 → matWidth array % tw = 0 →
        th ≤ matHeight array → tw ≤ matWidth array →
        downsample_array array th tw =
          .ok (blockMean array th tw (matHeight array / th) (matWidth array / tw)))
    ∧ (∀ v : ℚ,
        downsample_array (constMat 16 16 (some v)) 8 8 = .ok (constMat 8 8 (some v)))
    ∧ (∀ (array : Mat) (th tw : Nat),
        0 < th → 0 < tw →
        th ≤ matHeight array → tw ≤ matWidth array →
        ¬ (matHeight array % th = 0 ∧ matWidth array % tw = 0) →
        downsample_array array th tw =
          .error "Decoded tile dimensions are not evenly divisible by requested chunk size")
    ∧ (∀ array : Mat, matHeight array = 15 → matWidth array = 16 →
        downsample_array array 8 8 =
          .error "Decoded tile dimensions are not evenly divisible by requested chunk size")
    ∧ (∀ (array : Mat) (th tw : Nat),
        0 < th → 0 < tw →
        (matHeight array < th ∨ matWidth array < tw) →
        ∃ e, downsample_array array th tw = .error e) := by
  refine ⟨?_, ?_, ?_, ?_, ?_, ?_⟩
  · intro array th tw hh hw
    unfold downsample_array
    rw [if_pos ⟨hh, hw⟩]
  · intro array th tw hth htw hne hmh hmw hle1 hle2
    unfold downsample_array
    rw [if_neg hne, if_neg (by omega), if_neg (by omega), if_neg (by omega)]
  · intro v
    unfold downsample_array
    rw [matHeight_constMat, matWidth_constMat 16 16 _ (by omega)]
    rw [if_neg (by omega), if_neg (by omega), if_neg (by omega), if_neg (by omega)]
    have h16 : (16 : Nat) / 8 = 2 := by omega
    simp only [h16]
    have hc : constMat 16 16 (some v) = constMat (8 * 2) (8 * 2) (some v) := by norm_num
    rw [hc, blockMean_constMat 8 8 2 2 v (by omega) (by omega)]
  · intro array th tw hth htw hle1 hle2 hmod
    unfold downsample_array
    rw [if_neg ?hne, if_neg (by omega), if_neg (by omega), if_pos ?hdvd]
    case hne =>
      rintro ⟨h1, h2⟩
      exact hmod ⟨by rw [h1]; exact Nat.mod_self th, by rw [h2]; exact Nat.mod_self tw⟩
    case hdvd => tauto
  · intro array hh hw
    unfold downsample_array
    rw [hh, hw]
    rw [if_neg (by omega), if_neg (by omega), if_neg (by omega), if_pos (by omega)]
  · intro array th tw hth htw hlt
    unfold downsample_array
    rw [if_neg (by omega), if_neg (by omega), if_pos hlt]
    exact ⟨_, rfl⟩

/-- Witness for `downsample_array_spec` at concrete arrays: exact match passes
through, a `4×4` multiple reduces to the block mean, the non-multiple shapes
`16×15` and `15×16` against `8×8` and an undersized `1×1` against `2×2` are
errors. -/
theorem downsample_array_spec_witness :
    downsample_array [[some 3]] 1 1 = .ok [[some 3]]
    ∧ downsample_array (constMat 4 4 (some 2)) 2 2 =
        .ok (blockMean (constMat 4 4 (some 2)) 2 2 2 2)
    ∧ downsample_array (constMat 16 16 (some 5)) 8 8 = .ok (constMat 8 8 (some 5))
    ∧ downsample_array (constMat 16 15 (some 1)) 8 8 =
        .error "Decoded tile dimensions are not evenly divisible by requested chunk size"
    ∧ downsample_array (constMat 15 16 (some 1)) 8 8 =
        .error "Decoded tile dimensions are not evenly divisible by requested chunk size"
    ∧ (∃ e, downsample_array [[some 1]] 2 2 = .error e) :=
  ⟨downsample_array_spec.1 [[some 3]] 1 1 (by decide) (by decide),
   downsample_array_spec.2.1 (constMat 4 4 (some 2)) 2 2 (by decide) (by decide)
     (by decide) (by decide) (by decide) (by decide) (by decide),
   downsample_array_spec.2.2.1 5,
   downsample_array_spec.2.2.2.1 (constMat 16 15 (some 1)) 8 8 (by decide)
     (by decide) (by decide) (by decide) (by decide),
   downsample_array_spec.2.2.2.2.1 (constMat 15 16 (some 1)) (by decide) (by decide),
   downsample_array_spec.2.2.2.2.2 [[some 1]] 2 2 (by decide) (by decide)
     (by decide)⟩

/-- C2 counterexample: a tile request whose fetch succeeds but whose decoder
raises does not produce an all-NaN array — `_load_tile_array` has no
try/except around the decoder, so the decode exception propagates out of the
per-tile unit of work. -/
theorem load_tile_array_decode_error_cex :
    okTiffResponse.success = true
    ∧ failingDecoder okTiffResponse smallTileRequest = .error "decode failed"
    ∧ load_tile_array smallTileRequest okTiffResponse failingDecoder =
        .error "decode failed"
    ∧ load_tile_array smallTileRequest okTiffResponse failingDecoder ≠
        .ok (nanFull (pyOrNat smallTileRequest.height 0)
          (pyOrNat smallTileRequest.width 0)) := by
  refine ⟨rfl, rfl, rfl, ?_⟩
  intro hcontra
  rw [show load_tile_array smallTileRequest okTiffResponse failingDecoder =
    Except.error "decode failed" from rfl] at hcontra
  exact Except.noConfusion hcontra

/-- C2 (amended): `_load_tile_array` fills an all-NaN array of the requested
shape only when the fetch fails (`success=false`); when the fetch succeeds
and the decoder raises, the decode exception propagates unchanged. -/
theorem load_tile_array_failure_handling :
    (∀ (request : TileRequest) (response : TileResponse) (decoder : TileDecoder),
        response.success = false →
        load_tile_array request response decoder =
          .ok (nanFull (pyOrNat request.height 0) (pyOrNat request.width 0)))
    ∧ (∀ (request : TileRequest) (response : TileResponse) (decoder : TileDecoder)
        (e : String),
        response.success = true → decoder response request = .error e →
        load_tile_array request response decoder = .error e) := by
  constructor
  · intro request response decoder hs
    unfold load_tile_array
    rw [if_pos hs]
  · intro request response decoder e hs hd
    unfold load_tile_array
    rw [if_neg (by simp [hs]), hd]
    rfl

/-- Witness for `load_tile_array_failure_handling`: a failed fetch NaN-fills
the 1×1 cell, and a failing decoder's error propagates. -/
theorem load_tile_array_failure_handling_witness :
    load_tile_array smallTileRequest
        { data := [], content_type := "", status_code := 500, headers := [],
          url := "https://example.com/wcs", success := false,
          error_message := some "HTTP 500: boom" } failingDecoder =
      .ok (nanFull 1 1)
    ∧ load_tile_array smallTileRequest okTiffResponse failingDecoder =
        .error "decode failed" :=
  ⟨load_tile_array_failure_handling.1 smallTileRequest _ failingDecoder rfl,
   load_tile_array_failure_handling.2 smallTileRequest okTiffResponse failingDecoder
     "decode failed" rfl rfl⟩

/-- C8 counterexample: when the network fetch succeeds with non-empty bytes
but writing those bytes to the cache fails, `_fetch_with_cache` does not
return the successful response — there is no try/except around
`_write_cache`, so the cache-write exception propagates. -/
theorem fetch_with_cache_write_error_cex :
    okTiffResponse.success = true
    ∧ okTiffResponse.data ≠ []
    ∧ fetch_with_cache smallTileRequest (some "/tmp/cache") none okTiffResponse
        (.error "disk full") = .error "disk full"
    ∧ fetch_with_cache smallTileRequest (some "/tmp/cache") none okTiffResponse
        (.error "disk full") ≠ .ok okTiffResponse := by
  refine ⟨rfl, by decide, rfl, ?_⟩
  intro hcontra
  rw [show fetch_with_cache smallTileRequest (some "/tmp/cache") none okTiffResponse
    (.error "disk full") = Except.error "disk full" from rfl] at hcontra
  exact Except.noConfusion hcontra

/-- C8 (amended): on a cache miss with a successful non-empty fetch,
`_fetch_with_cache` returns the response exactly when the cache write
succeeds; a cache-write failure propagates as an exception instead. -/
theorem fetch_with_cache_write_result :
    (∀ (request : TileRequest) (cache_dir : String) (fetch_result : TileResponse),
        fetch_result.success = true → fetch_result.data ≠ [] →
        fetch_with_cache request (some cache_dir) none fetch_result (.ok ()) =
          .ok fetch_result)
    ∧ (∀ (request : TileRequest) (cache_dir : String) (fetch_result : TileResponse)
        (e : String),
        fetch_result.success = true → fetch_result.data ≠ [] →
        fetch_with_cache request (some cache_dir) none fetch_result (.error e) =
          .error e) := by
  constructor
  · intro request cache_dir fetch_result hs hd
    unfold fetch_with_cache
    rw [if_pos ⟨rfl, hs, hd⟩]
    rfl
  · intro request cache_dir fetch_result e hs hd
    unfold fetch_with_cache
    rw [if_pos ⟨rfl, hs, hd⟩]
    rfl

/-- Witness for `fetch_with_cache_write_result` at a concrete request and
response: a successful write returns the response, a failing write raises. -/
theorem fetch_with_cache_write_result_witness :
    fetch_with_cache smallTileRequest (some "/tmp/cache") none okTiffResponse
        (.ok ()) = .ok okTiffResponse
    ∧ fetch_with_cache smallTileRequest (some "/tmp/cache") none okTiffResponse
        (.error "disk full") = .error "disk full" :=
  ⟨fetch_with_cache_write_result.1 smallTileRequest "/tmp/cache" okTiffResponse
      rfl (by decide),
   fetch_with_cache_write_result.2 smallTileRequest "/tmp/cache" okTiffResponse
      "disk full" rfl (by decide)⟩

/-- C7: a non-positive resolution component, or (in grid mode) a non-positive
row or column count, makes `plan_tiles` raise before yielding anything, and
`_validate_grid_shape` rejects non-positive grids; a planning error makes
`generate_tile_requests` fail with the same error before any tile request is
built, hence before any network or disk I/O can be attempted. -/
theorem plan_validation_before_io :
    (∀ (bbox : BoundingBox) (chunk_size : Nat × Nat) (res_x res_y : ℚ)
        (grid_shape : Option (Int × Int)),
        res_x ≤ 0 ∨ res_y ≤ 0 →
        plan_tiles bbox chunk_size (some (res_x, res_y)) grid_shape =
          .error "resolution values must be positive")
    ∧ (∀ (bbox : BoundingBox) (chunk_size : Nat × Nat) (rows cols : Int),
        rows ≤ 0 ∨ cols ≤ 0 →
        plan_tiles bbox chunk_size none (some (rows, cols)) =
          .error "grid_shape dimensions must be positive integers")
    ∧ (∀ rows cols : Int, rows ≤ 0 ∨ cols ≤ 0 →
        validate_grid_shape (rows, cols) =
          .error "grid_shape must contain positive integers")
    ∧ (∀ (self : WCSService) (bbox : BoundingBox) (chunk_size : Nat × Nat)
        (options : BuildOptions) (e : String),
        plan_tiles bbox chunk_size options.resolution options.grid_shape = .error e →
        generate_tile_requests self bbox chunk_size options = .error e) := by
  refine ⟨?_, ?_, ?_, ?_⟩
  · intro bbox chunk_size res_x res_y grid_shape hbad
    simp only [plan_tiles]
    rw [if_pos hbad]
  · intro bbox chunk_size rows cols hbad
    simp only [plan_tiles, Option.getD_some]
    rw [if_pos hbad]
  · intro rows cols hbad
    unfold validate_grid_shape
    rw [if_pos hbad]
  · intro self bbox chunk_size options e hplan
    unfold generate_tile_requests
    rw [hplan]
    rfl

/-- Witness for `plan_validation_before_io` at concrete bad inputs: a zero
resolution component, a zero column count, and a negative row count. -/
theorem plan_validation_before_io_witness :
    plan_tiles default (256, 256) (some (0, 1)) none =
      .error "resolution values must be positive"
    ∧ plan_tiles default (256, 256) none (some (2, 0)) =
        .error "grid_shape dimensions must be positive integers"
    ∧ validate_grid_shape (-1, 3) = .error "grid_shape must contain positive integers"
    ∧ generate_tile_requests { base_url := "https://example.com/wcs" } default
        (256, 256) { grid_shape := some (2, 0) } =
        .error "grid_shape dimensions must be positive integers" :=
  ⟨plan_validation_before_io.1 default (256, 256) 0 1 none (Or.inl le_rfl),
   plan_validation_before_io.2.1 default (256, 256) 2 0 (Or.inr le_rfl),
   plan_validation_before_io.2.2.1 (-1) 3 (Or.inl (by norm_num)),
   plan_validation_before_io.2.2.2 { base_url := "https://example.com/wcs" }
     default (256, 256) { grid_shape := some (2, 0) } _
     (plan_validation_before_io.2.1 default (256, 256) 2 0 (Or.inr le_rfl))⟩

theorem str_append_ne_empty (s t : String) (hs : s ≠ "") : s ++ t ≠ "" := by
  intro hc
  apply hs
  have hdata := congrArg String.data hc
  rw [String.data_append] at hdata
  exact String.ext (List.append_eq_nil.mp hdata).1

theorem fetchLoop_all_fail (request : TileRequest) (attempts : Nat → HttpAttempt)
    (hfail : ∀ i, i ≤ request.retries → (attempts i).isSuccess = false) :
    ∀ (fuel attempt : Nat) (last_exception : Option String),
      attempt ≤ request.retries →
      (fetchLoop request attempts last_exception fuel attempt).success = false ∧
      (fetchLoop request attempts last_exception fuel attempt).data = [] ∧
      ∃ msg, (fetchLoop request attempts last_exception fuel attempt).error_message
        = some msg ∧ msg ≠ "" := by
  intro fuel
  induction fuel with
  | zero =>
    intro attempt last_exception _
    refine ⟨rfl, rfl, _, rfl, ?_⟩
    exact str_append_ne_empty _ _ (by decide)
  | succ m ih =>
    intro attempt last_exception hle
    have hnot := hfail attempt hle
    cases hatt : attempts attempt with
    | response status_code data text content_type headers url =>
      rw [hatt] at hnot
      simp only [HttpAttempt.isSuccess, decide_eq_false_iff_not] at hnot
      show _ ∧ _ ∧ _
      unfold fetchLoop
      rw [hatt]
      dsimp only
      rw [if_neg hnot]
      by_cases hlast : attempt = request.retries
      · rw [if_pos hlast]
        refine ⟨rfl, rfl, _, rfl, ?_⟩
        exact str_append_ne_empty _ _
          (str_append_ne_empty _ _ (str_append_ne_empty _ _ (by decide)))
      · rw [if_neg hlast]
        exact ih (attempt + 1) last_exception (by omega)
    | transportError msg =>
      show _ ∧ _ ∧ _
      unfold fetchLoop
      rw [hatt]
      dsimp only
      by_cases hlast : attempt = request.retries
      · rw [if_pos hlast]
        refine ⟨rfl, rfl, _, rfl, ?_⟩
        exact str_append_ne_empty _ _ (by decide)
      · rw [if_neg hlast]
        exact ih (attempt + 1) (some msg) (by omega)

theorem fetchLoop_congr (request : TileRequest) (a1 a2 : Nat → HttpAttempt)
    (hagree : ∀ i, i ≤ request.retries → a1 i = a2 i) :
    ∀ (fuel attempt : Nat) (last_exception : Option String),
      attempt ≤ request.retries →
      fetchLoop request a1 last_exception fuel attempt =
        fetchLoop request a2 last_exception fuel attempt := by
  intro fuel
  induction fuel with
  | zero => intro attempt last_exception _; rfl
  | succ m ih =>
    intro attempt last_exception hle
    unfold fetchLoop
    rw [← hagree attempt hle]
    cases a1 attempt with
    | response status_code data text content_type headers url =>
      dsimp only
      by_cases h200 : status_code = 200
      · rw [if_pos h200, if_pos h200]
      · rw [if_neg h200, if_neg h200]
        by_cases hlast : attempt = request.retries
        · rw [if_pos hlast, if_pos hlast]
        · rw [if_neg hlast, if_neg hlast]
          exact ih (attempt + 1) last_exception (by omega)
    | transportError msg =>
      dsimp only
      by_cases hlast : attempt = request.retries
      · rw [if_pos hlast, if_pos hlast]
      · rw [if_neg hlast, if_neg hlast]
        exact ih (attempt + 1) (some msg) (by omega)

/-- C6: for a request with a non-empty URL and non-empty params whose every
attempt up to index `retries` fails (non-200 status or transport error),
`fetch_tile` returns — it does not raise — a `TileResponse` with
`success=false`, empty data bytes and a non-empty error message; moreover its
result depends only on the outcomes of attempts `0..retries`, i.e. it
performs at most `retries` additional attempts after the first. -/
theorem fetch_tile_failure_no_raise :
    (∀ (request : TileRequest) (attempts : Nat → HttpAttempt),
        request.url ≠ "" → request.params ≠ [] →
        (∀ i, i ≤ request.retries → (attempts i).isSuccess = false) →
        ∃ response : TileResponse,
          fetch_tile request attempts = .ok response ∧
          response.success = false ∧ response.data = [] ∧
          ∃ msg, response.error_message = some msg ∧ msg ≠ "")
    ∧ (∀ (request : TileRequest) (a1 a2 : Nat → HttpAttempt),
        request.url ≠ "" → request.params ≠ [] →
        (∀ i, i ≤ request.retries → a1 i = a2 i) →
        fetch_tile request a1 = fetch_tile request a2) := by
  constructor
  · intro request attempts hurl hparams hfail
    refine ⟨fetchLoop request attempts none (request.retries + 1) 0, ?_, ?_⟩
    · unfold fetch_tile
      rw [if_neg hurl, if_neg hparams]
    · exact fetchLoop_all_fail request attempts hfail (request.retries + 1) 0 none
        (Nat.zero_le _)
  · intro request a1 a2 hurl hparams hagree
    unfold fetch_tile
    simp only [if_neg hurl, if_neg hparams,
      fetchLoop_congr request a1 a2 hagree (request.retries + 1) 0 none (Nat.zero_le _)]

/-- Witness for `fetch_tile_failure_no_raise`: a request whose four attempts
all hit a transport error yields a returned failure response, and two attempt
streams agreeing on indices `0..retries` yield identical results. -/
theorem fetch_tile_failure_no_raise_witness :
    (∃ response : TileResponse,
      fetch_tile smallTileRequest (fun _ => .transportError "connection refused") =
        .ok response ∧
      response.success = false ∧ response.data = [] ∧
      ∃ msg, response.error_message = some msg ∧ msg ≠ "")
    ∧ fetch_tile smallTileRequest (fun _ => .transportError "connection refused") =
        fetch_tile smallTileRequest (fun i =>
          if i ≤ 3 then .transportError "connection refused"
          else .response 200 [1] "" "" [] "") :=
  ⟨fetch_tile_failure_no_raise.1 smallTileRequest
      (fun _ => .transportError "connection refused")
      (by decide) (by decide) (fun i _ => rfl),
   fetch_tile_failure_no_raise.2 smallTileRequest
      (fun _ => .transportError "connection refused")
      (fun i => if i ≤ 3 then .transportError "connection refused"
        else .response 200 [1] "" "" [] "")
      (by decide) (by decide)
      (fun i hi => by
        have h3 : i ≤ 3 := hi
        show HttpAttempt.transportError "connection refused" =
          if i ≤ 3 then HttpAttempt.transportError "connection refused"
          else HttpAttempt.response 200 [1] "" "" [] ""
        rw [if_pos h3])⟩

theorem strPairLe_trans (a b c : String × String)
    (h1 : strPairLe a b = true) (h2 : strPairLe b c = true) :
    strPairLe a c = true := by
  simp only [strPairLe, Bool.or_eq_true, Bool.and_eq_true, decide_eq_true_eq] at *
  rcases h1 with h1 | ⟨h1e, h1le⟩ <;> rcases h2 with h2 | ⟨h2e, h2le⟩
  · exact Or.inl (lt_trans h1 h2)
  · exact Or.inl (h2e ▸ h1)
  · exact Or.inl (h1e ▸ h2)
  · exact Or.inr ⟨h1e.trans h2e, le_trans h1le h2le⟩

theorem strPairLe_total (a b : String × String) :
    (strPairLe a b || strPairLe b a) = true := by
  simp only [strPairLe, Bool.or_eq_true, Bool.and_eq_true, decide_eq_true_eq]
  rcases lt_trichotomy a.1 b.1 with h | h | h
  · exact Or.inl (Or.inl h)
  · rcases le_total a.2 b.2 with h2 | h2
    · exact Or.inl (Or.inr ⟨h, h2⟩)
    · exact Or.inr (Or.inr ⟨h.symm, h2⟩)
  · exact Or.inr (Or.inl h)

theorem strPairLe_antisymm (a b : String × String)
    (h1 : strPairLe a b = true) (h2 : strPairLe b a = true) : a = b := by
  simp only [strPairLe, Bool.or_eq_true, Bool.and_eq_true, decide_eq_true_eq] at h1 h2
  rcases h1 with h1 | ⟨h1e, h1le⟩ <;> rcases h2 with h2 | ⟨h2e, h2le⟩
  · exact absurd h2 (lt_asymm h1)
  · exact absurd h1 (h2e ▸ lt_irrefl _)
  · exact absurd h2 (h1e ▸ lt_irrefl _)
  · exact Prod.ext h1e (le_antisymm h1le h2le)

theorem mergeSort_eq_of_perm_strPair (l1 l2 : List (String × String))
    (hp : l1.Perm l2) : l1.mergeSort strPairLe = l2.mergeSort strPairLe := by
  exact @List.eq_of_perm_of_sorted (String × String)
    (fun a b => strPairLe a b = true) ⟨strPairLe_antisymm⟩ _ _
    ((List.mergeSort_perm l1 _).trans (hp.trans (List.mergeSort_perm l2 _).symm))
    (List.sorted_mergeSort strPairLe_trans strPairLe_total l1)
    (List.sorted_mergeSort strPairLe_trans strPairLe_total l2)

/-- C5: the cache key is a deterministic function of exactly
`{url, params (as a multiset of stringified pairs), format, bbox, width,
height}` — two requests agreeing on those fields, with the parameter pairs in
any insertion order (and regardless of headers, timeout, retries and crs),
hash to the same hexadecimal key. -/
theorem cache_key_deterministic :
    ∀ r1 r2 : TileRequest,
      r1.url = r2.url →
      (r1.params.map (fun p => (p.1, p.2.pyStr))).Perm
        (r2.params.map (fun p => (p.1, p.2.pyStr))) →
      r1.output_format = r2.output_format →
      r1.bbox = r2.bbox →
      r1.width = r2.width →
      r1.height = r2.height →
      cache_key r1 = cache_key r2 := by
  intro r1 r2 hurl hperm hfmt hbbox hw hh
  have hsorted : sortedParamPairs r1 = sortedParamPairs r2 :=
    mergeSort_eq_of_perm_strPair _ _ hperm
  have hpayload : cache_key_payload r1 = cache_key_payload r2 := by
    simp only [cache_key_payload]
    rw [hsorted, hurl, hfmt, hbbox, hw, hh]
  unfold cache_key
  rw [hpayload]

/-- Witness for `cache_key_deterministic`: two concrete requests with the same
url/params-set/format/bbox/width/height but different parameter insertion
order, headers, timeout, retries and crs produce the same key. -/
theorem cache_key_deterministic_witness :
    cache_key
      { url := "https://example.com/wcs"
        params := [("service", .str "WCS"), ("request", .str "GetCoverage")]
        headers := some [("Accept", "image/tiff")]
        timeout := 30, retries := 3
        output_format := some .geotiff
        crs := some .epsg4326
        bbox := some ⟨0, 0, 1, 1, .epsg4326⟩
        width := some 256, height := some 256 } =
    cache_key
      { url := "https://example.com/wcs"
        params := [("request", .str "GetCoverage"), ("service", .str "WCS")]
        headers := none
        timeout := 60, retries := 0
        output_format := some .geotiff
        crs := some .epsg27700
        bbox := some ⟨0, 0, 1, 1, .epsg4326⟩
        width := some 256, height := some 256 } :=
  cache_key_deterministic _ _ rfl (by decide) rfl rfl rfl rfl

theorem tupleLe_trans (a b c : ℚ × ℚ)
    (h1 : tupleLe a b = true) (h2 : tupleLe b c = true) : tupleLe a c = true := by
  simp only [tupleLe, Bool.or_eq_true, Bool.and_eq_true, decide_eq_true_eq] at *
  rcases h1 with h1 | ⟨h1e, h1le⟩ <;> rcases h2 with h2 | ⟨h2e, h2le⟩
  · exact Or.inl (lt_trans h1 h2)
  · exact Or.inl (h2e ▸ h1)
  · exact Or.inl (h1e ▸ h2)
  · exact Or.inr ⟨h1e.trans h2e, le_trans h1le h2le⟩

theorem tupleLe_total (a b : ℚ × ℚ) : (tupleLe a b || tupleLe b a) = true := by
  simp only [tupleLe, Bool.or_eq_true, Bool.and_eq_true, decide_eq_true_eq]
  rcases lt_trichotomy a.1 b.1 with h | h | h
  · exact Or.inl (Or.inl h)
  · rcases le_total a.2 b.2 with h2 | h2
    · exact Or.inl (Or.inr ⟨h, h2⟩)
    · exact Or.inr (Or.inr ⟨h.symm, h2⟩)
  · exact Or.inr (Or.inl h)

theorem tileRequestLe_trans (a b c : TileRequest)
    (h1 : tileRequestLe a b = true) (h2 : tileRequestLe b c = true) :
    tileRequestLe a c = true :=
  tupleLe_trans _ _ _ h1 h2

theorem tileRequestLe_total (a b : TileRequest) :
    (tileRequestLe a b || tileRequestLe b a) = true :=
  tupleLe_total _ _

theorem chunkRows_length (cols : Nat) :
    ∀ (rows : Nat) (l : List TileRequest), (chunkRows cols rows l).length = rows := by
  intro rows
  induction rows with
  | zero => intro l; rfl
  | succ m ih => intro l; simp [chunkRows, ih]

theorem chunkRows_flatten (cols : Nat) :
    ∀ (rows : Nat) (l : List TileRequest), l.length = rows * cols →
      (chunkRows cols rows l).flatten = l := by
  intro rows
  induction rows with
  | zero =>
    intro l hl
    have : l = [] := List.length_eq_zero.mp (by omega)
    simp [chunkRows, this]
  | succ m ih =>
    intro l hl
    have hdrop : (l.drop cols).length = m * cols := by
      rw [List.length_drop, hl, Nat.succ_mul]
      omega
    simp only [chunkRows, List.flatten_cons, ih (l.drop cols) hdrop]
    exact List.take_append_drop cols l

theorem chunkRows_row_length (cols : Nat) :
    ∀ (rows : Nat) (l : List TileRequest), l.length = rows * cols →
      ∀ row ∈ chunkRows cols rows l, row.length = cols := by
  intro rows
  induction rows with
  | zero => intro l _ row hrow; exact absurd hrow (by simp [chunkRows])
  | succ m ih =>
    intro l hl row hrow
    simp only [chunkRows, List.mem_cons] at hrow
    rcases hrow with hrow | hrow
    · subst hrow
      rw [List.length_take, hl, Nat.succ_mul]
      omega
    · exact ih (l.drop cols) (by rw [List.length_drop, hl, Nat.succ_mul]; omega) row hrow

/-- Two sorted permutations of each other are equal when the comparison is
antisymmetric on the elements of the first list (which holds in particular
when the elements have pairwise distinct sort keys). -/
theorem eq_of_perm_of_sorted_on {α : Type} (le : α → α → Bool) :
    ∀ (l1 l2 : List α),
      l1.Perm l2 →
      l1.Pairwise (fun a b => le a b = true) →
      l2.Pairwise (fun a b => le a b = true) →
      (∀ a ∈ l1, ∀ b ∈ l1, le a b = true → le b a = true → a = b) →
      l1 = l2 := by
  intro l1
  induction l1 with
  | nil => intro l2 hp _ _ _; exact hp.nil_eq
  | cons a t ih =>
    intro l2 hp hs1 hs2 hanti
    cases l2 with
    | nil => exact absurd hp.symm.nil_eq (by intro h; exact List.noConfusion h)
    | cons b t2 =>
      have hab : a = b := by
        by_contra hne
        have haT2 : a ∈ t2 := by
          rcases List.mem_cons.mp (hp.subset (List.mem_cons_self a t)) with h | h
          · exact absurd h hne
          · exact h
        have hbT : b ∈ t := by
          rcases List.mem_cons.mp (hp.symm.subset (List.mem_cons_self b t2)) with h | h
          · exact absurd h.symm hne
          · exact h
        have h1 : le a b = true := (List.pairwise_cons.mp hs1).1 b hbT
        have h2 : le b a = true := (List.pairwise_cons.mp hs2).1 a haT2
        exact hne (hanti a (List.mem_cons_self a t) b (List.mem_cons_of_mem a hbT) h1 h2)
      subst hab
      have ht : t = t2 :=
        ih t2 hp.cons_inv (List.pairwise_cons.mp hs1).2 (List.pairwise_cons.mp hs2).2
          (fun x hx y hy => hanti x (List.mem_cons_of_mem a hx) y (List.mem_cons_of_mem a hy))
      rw [ht]

/-- C3: `_organize_tiles` raises when the request count differs from
`rows*cols`; otherwise it sorts the requests by descending bbox `max_y` then
ascending bbox `min_x` and slices them into `rows` consecutive groups of
`cols` (so the flattened grid is a sorted permutation of the input); and on
any permutation of the four unit squares of `(0,0,2,2)` with grid `(2,2)`,
row 0 holds the two north tiles west-to-east and row 1 the two south tiles,
regardless of input order. -/
theorem organize_tiles_canonical :
    (∀ (tile_requests : List TileRequest) (rows cols : Nat),
        tile_requests.length ≠ rows * cols →
        ∃ e, organize_tiles tile_requests rows cols = .error e)
    ∧ (∀ (tile_requests : List TileRequest) (rows cols : Nat),
        tile_requests.length = rows * cols →
        (∀ r ∈ tile_requests, r.bbox.isNone = false) →
        ∃ grid, organize_tiles tile_requests rows cols = .ok grid ∧
          grid.length = rows ∧
          (∀ row ∈ grid, row.length = cols) ∧
          grid.flatten.Perm tile_requests ∧
          grid.flatten.Pairwise (fun a b => tileRequestLe a b = true))
    ∧ (∀ l : List TileRequest, l.Perm [tileNW, tileNE, tileSW, tileSE] →
        organize_tiles l 2 2 = .ok [[tileNW, tileNE], [tileSW, tileSE]]) := by
  have hok : ∀ (tile_requests : List TileRequest) (rows cols : Nat),
      tile_requests.length = rows * cols →
      (∀ r ∈ tile_requests, r.bbox.isNone = false) →
      organize_tiles tile_requests rows cols =
        .ok (chunkRows cols rows (tile_requests.mergeSort tileRequestLe)) := by
    intro tile_requests rows cols hlen hbb
    unfold organize_tiles
    rw [if_neg (not_not_intro hlen), if_neg ?hany]
    case hany =>
      intro hany
      obtain ⟨r, hr, hnone⟩ := List.any_eq_true.mp hany
      rw [hbb r hr] at hnone
      exact Bool.noConfusion hnone
  refine ⟨?_, ?_, ?_⟩
  · intro tile_requests rows cols hne
    unfold organize_tiles
    rw [if_pos hne]
    exact ⟨_, rfl⟩
  · intro tile_requests rows cols hlen hbb
    have hslen : (tile_requests.mergeSort tileRequestLe).length = rows * cols := by
      rw [(List.mergeSort_perm tile_requests tileRequestLe).length_eq, hlen]
    refine ⟨chunkRows cols rows (tile_requests.mergeSort tileRequestLe),
      hok tile_requests rows cols hlen hbb, chunkRows_length cols rows _, ?_, ?_, ?_⟩
    · exact chunkRows_row_length cols rows _ hslen
    · rw [chunkRows_flatten cols rows _ hslen]
      exact List.mergeSort_perm tile_requests tileRequestLe
    · rw [chunkRows_flatten cols rows _ hslen]
      exact List.sorted_mergeSort tileRequestLe_trans tileRequestLe_total tile_requests
  · intro l hp
    have hlen : l.length = 2 * 2 := by rw [hp.length_eq]; rfl
    have hbb : ∀ r ∈ l, r.bbox.isNone = false := by
      intro r hr
      have : r ∈ [tileNW, tileNE, tileSW, tileSE] := hp.subset hr
      fin_cases this <;> rfl
    rw [hok l 2 2 hlen hbb]
    have hsorted_eq : [tileNW, tileNE, tileSW, tileSE] = l.mergeSort tileRequestLe := by
      apply eq_of_perm_of_sorted_on tileRequestLe
      · exact hp.symm.trans (List.mergeSort_perm l tileRequestLe).symm
      · decide
      · exact List.sorted_mergeSort tileRequestLe_trans tileRequestLe_total l
      · decide
    rw [← hsorted_eq]
    rfl

/-- Witness for `organize_tiles_canonical`: a one-tile list with grid `(2,2)`
errors; the canonical four tiles organize into the expected grid; a shuffled
permutation of the four tiles organizes into the same grid. -/
theorem organize_tiles_canonical_witness :
    (∃ e, organize_tiles [tileNW] 2 2 = .error e)
    ∧ (∃ grid, organize_tiles [tileNW, tileNE, tileSW, tileSE] 2 2 = .ok grid ∧
        grid.length = 2 ∧
        (∀ row ∈ grid, row.length = 2) ∧
        grid.flatten.Perm [tileNW, tileNE, tileSW, tileSE] ∧
        grid.flatten.Pairwise (fun a b => tileRequestLe a b = true))
    ∧ organize_tiles [tileSE, tileNW, tileSW, tileNE] 2 2 =
        .ok [[tileNW, tileNE], [tileSW, tileSE]] :=
  ⟨organize_tiles_canonical.1 [tileNW] 2 2 (by decide),
   organize_tiles_canonical.2.1 [tileNW, tileNE, tileSW, tileSE] 2 2 (by decide)
     (by intro r hr; fin_cases hr <;> rfl),
   organize_tiles_canonical.2.2 [tileSE, tileNW, tileSW, tileNE] (by decide)⟩

theorem gridCell_min_x (bbox : BoundingBox) (rows cols w h : Nat)
    (hc : 0 < cols) (r c : Nat) :
    (gridCell bbox rows cols w h r c).bbox.min_x =
      bbox.min_x + (c : ℚ) * ((bbox.max_x - bbox.min_x) / (cols : ℚ)) := by
  simp only [gridCell, if_pos hc]

theorem gridCell_min_y (bbox : BoundingBox) (rows cols w h : Nat)
    (hr : 0 < rows) (r c : Nat) :
    (gridCell bbox rows cols w h r c).bbox.min_y =
      bbox.min_y + (r : ℚ) * ((bbox.max_y - bbox.min_y) / (rows : ℚ)) := by
  simp only [gridCell, if_pos hr]

theorem cast_pred_add_one (n : Nat) (hn : 0 < n) : ((n - 1 : Nat) : ℚ) + 1 = (n : ℚ) := by
  have h1 : (1 : Nat) ≤ n := hn
  rw [Nat.cast_sub h1]
  push_cast
  ring

theorem gridCell_max_x (bbox : BoundingBox) (rows cols w h : Nat)
    (hc : 0 < cols) (r c : Nat) (hcc : c < cols) :
    (gridCell bbox rows cols w h r c).bbox.max_x =
      bbox.min_x + ((c : ℚ) + 1) * ((bbox.max_x - bbox.min_x) / (cols : ℚ)) := by
  simp only [gridCell, if_pos hc]
  by_cases hlt : c < cols - 1
  · rw [if_pos hlt]
  · rw [if_neg hlt]
    have hceq : c = cols - 1 := by omega
    subst hceq
    rw [cast_pred_add_one cols hc]
    have hne : (cols : ℚ) ≠ 0 := Nat.cast_ne_zero.mpr (by omega)
    field_simp

theorem gridCell_max_y (bbox : BoundingBox) (rows cols w h : Nat)
    (hr : 0 < rows) (r c : Nat) (hrr : r < rows) :
    (gridCell bbox rows cols w h r c).bbox.max_y =
      bbox.min_y + ((r : ℚ) + 1) * ((bbox.max_y - bbox.min_y) / (rows : ℚ)) := by
  simp only [gridCell, if_pos hr]
  by_cases hlt : r < rows - 1
  · rw [if_pos hlt]
  · rw [if_neg hlt]
    have hreq : r = rows - 1 := by omega
    subst hreq
    rw [cast_pred_add_one rows hr]
    have hne : (rows : ℚ) ≠ 0 := Nat.cast_ne_zero.mpr (by omega)
    field_simp

theorem gridCell_width (bbox : BoundingBox) (rows cols w h r c : Nat) :
    (gridCell bbox rows cols w h r c).width = w := rfl

theorem gridCell_height (bbox : BoundingBox) (rows cols w h r c : Nat) :
    (gridCell bbox rows cols w h r c).height = h := rfl

theorem gridCell_crs (bbox : BoundingBox) (rows cols w h r c : Nat) :
    (gridCell bbox rows cols w h r c).crs = bbox.crs := rfl

theorem gridCell_bbox_crs (bbox : BoundingBox) (rows cols w h r c : Nat) :
    (gridCell bbox rows cols w h r c).bbox.crs = bbox.crs := rfl

theorem gridTileList_mem (bbox : BoundingBox) (rows cols w h : Nat)
    (t : TileGeometry) :
    t ∈ gridTileList bbox rows cols w h ↔
      ∃ r, r < rows ∧ ∃ c, c < cols ∧ t = gridCell bbox rows cols w h r c := by
  simp only [gridTileList, List.mem_flatMap, List.mem_map, List.mem_range]
  constructor
  · rintro ⟨r, hr, c, hc, rfl⟩
    exact ⟨r, hr, c, hc, rfl⟩
  · rintro ⟨r, hr, c, hc, rfl⟩
    exact ⟨r, hr, c, hc, rfl⟩

theorem gridTileList_length (bbox : BoundingBox) (rows cols w h : Nat) :
    (gridTileList bbox rows cols w h).length = rows * cols := by
  unfold gridTileList
  rw [List.length_flatMap]
  have hmap : (List.range rows).map
      (List.length ∘ fun row => (List.range cols).map
        (fun col => gridCell bbox rows cols w h row col)) =
      List.replicate rows cols := by
    apply map_range_const
    intro i _
    simp only [Function.comp_apply, List.length_map, List.length_range]
  rw [hmap, List.sum_replicate, smul_eq_mul]

theorem grid_cover_1d (a b : ℚ) (n : Nat) (hn : 0 < n) (hab : a < b)
    (x : ℚ) (h1 : a ≤ x) (h2 : x ≤ b) :
    ∃ c, c < n ∧ a + (c : ℚ) * ((b - a) / (n : ℚ)) ≤ x ∧
      x ≤ a + ((c : ℚ) + 1) * ((b - a) / (n : ℚ)) := by
  have hnQ : (0 : ℚ) < (n : ℚ) := Nat.cast_pos.mpr hn
  have hspos : 0 < (b - a) / (n : ℚ) := div_pos (by linarith) hnQ
  set s : ℚ := (b - a) / (n : ℚ) with hs
  have hlast : a + (n : ℚ) * s = b := by
    rw [hs]
    have hne : (n : ℚ) ≠ 0 := ne_of_gt hnQ
    field_simp
  by_cases hxb : a + ((n - 1 : Nat) : ℚ) * s ≤ x
  · refine ⟨n - 1, by omega, hxb, ?_⟩
    rw [cast_pred_add_one n hn, hlast]
    exact h2
  · push_neg at hxb
    have hj0 : 0 ≤ ⌊(x - a) / s⌋ :=
      Int.floor_nonneg.mpr (div_nonneg (by linarith) (le_of_lt hspos))
    have hjlt : ⌊(x - a) / s⌋ < ((n - 1 : Nat) : ℤ) := by
      rw [Int.floor_lt]
      rw [div_lt_iff₀ hspos]
      push_cast
      linarith
    refine ⟨⌊(x - a) / s⌋.toNat, by omega, ?_, ?_⟩
    · have hfl : (⌊(x - a) / s⌋ : ℚ) ≤ (x - a) / s := Int.floor_le _
      have : (⌊(x - a) / s⌋ : ℚ) * s ≤ x - a := by
        rw [← le_div_iff₀ hspos]
        exact hfl
      have hcast : ((⌊(x - a) / s⌋.toNat : Nat) : ℚ) = (⌊(x - a) / s⌋ : ℚ) := by
        exact_mod_cast congrArg Int.cast (Int.toNat_of_nonneg hj0)
      rw [hcast]
      linarith
    · have hfl : (x - a) / s < (⌊(x - a) / s⌋ : ℚ) + 1 := Int.lt_floor_add_one _
      have : x - a < ((⌊(x - a) / s⌋ : ℚ) + 1) * s := by
        rw [← div_lt_iff₀ hspos]
        exact hfl
      have hcast : ((⌊(x - a) / s⌋.toNat : Nat) : ℚ) = (⌊(x - a) / s⌋ : ℚ) := by
        exact_mod_cast congrArg Int.cast (Int.toNat_of_nonneg hj0)
      rw [hcast]
      linarith

/-- C1: for a valid bounding box, a positive grid shape and positive chunk
pixel sizes, with no resolution option, `plan_tiles` yields exactly
`rows*cols` cells; every cell carries the caller's fixed chunk width and
height; every cell lies inside the input box and is itself a valid box; every
point of the input box is covered by some cell (no gaps); the open interiors
of distinct cells are disjoint (no double coverage); adjacent cells share
edges exactly; and the first/last row and column extend exactly to the
input's min/max edges. -/
theorem plan_tiles_explicit_grid_exact_tiling :
    ∀ (bbox : BoundingBox) (w h rows cols : Nat),
      bbox.valid → 0 < rows → 0 < cols → 0 < w → 0 < h →
      (plan_tiles bbox (w, h) none (some ((rows : Int), (cols : Int))) =
        .ok (gridTileList bbox rows cols w h))
      ∧ (gridTileList bbox rows cols w h).length = rows * cols
      ∧ (∀ t ∈ gridTileList bbox rows cols w h, t.width = w ∧ t.height = h)
      ∧ (∀ t ∈ gridTileList bbox rows cols w h,
          bbox.min_x ≤ t.bbox.min_x ∧ t.bbox.max_x ≤ bbox.max_x ∧
          bbox.min_y ≤ t.bbox.min_y ∧ t.bbox.max_y ≤ bbox.max_y ∧ t.bbox.valid)
      ∧ (∀ x y : ℚ, bbox.min_x ≤ x → x ≤ bbox.max_x →
          bbox.min_y ≤ y → y ≤ bbox.max_y →
          ∃ t ∈ gridTileList bbox rows cols w h,
            t.bbox.min_x ≤ x ∧ x ≤ t.bbox.max_x ∧
            t.bbox.min_y ≤ y ∧ y ≤ t.bbox.max_y)
      ∧ (∀ r c r' c', r < rows → c < cols → r' < rows → c' < cols →
          (r, c) ≠ (r', c') →
          ∀ x y : ℚ,
            ¬ (strictlyInside (gridCell bbox rows cols w h r c).bbox x y ∧
               strictlyInside (gridCell bbox rows cols w h r' c').bbox x y))
      ∧ (∀ r c, r < rows → c + 1 < cols →
          (gridCell bbox rows cols w h r c).bbox.max_x =
            (gridCell bbox rows cols w h r (c + 1)).bbox.min_x)
      ∧ (∀ r c, r + 1 < rows → c < cols →
          (gridCell bbox rows cols w h r c).bbox.max_y =
            (gridCell bbox rows cols w h (r + 1) c).bbox.min_y)
      ∧ (∀ r, r < rows →
          (gridCell bbox rows cols w h r 0).bbox.min_x = bbox.min_x ∧
          (gridCell bbox rows cols w h r (cols - 1)).bbox.max_x = bbox.max_x)
      ∧ (∀ c, c < cols →
          (gridCell bbox rows cols w h 0 c).bbox.min_y = bbox.min_y ∧
          (gridCell bbox rows cols w h (rows - 1) c).bbox.max_y = bbox.max_y) := by
  intro bbox w h rows cols hv hr hc hw hh
  obtain ⟨hx, hy⟩ := hv
  have hcQ : (0 : ℚ) < (cols : ℚ) := Nat.cast_pos.mpr hc
  have hrQ : (0 : ℚ) < (rows : ℚ) := Nat.cast_pos.mpr hr
  have hsx : 0 < (bbox.max_x - bbox.min_x) / (cols : ℚ) := div_pos (by linarith) hcQ
  have hsy : 0 < (bbox.max_y - bbox.min_y) / (rows : ℚ) := div_pos (by linarith) hrQ
  have hlastx : bbox.min_x + (cols : ℚ) * ((bbox.max_x - bbox.min_x) / (cols : ℚ)) =
      bbox.max_x := by
    have hne : (cols : ℚ) ≠ 0 := ne_of_gt hcQ
    field_simp
  have hlasty : bbox.min_y + (rows : ℚ) * ((bbox.max_y - bbox.min_y) / (rows : ℚ)) =
      bbox.max_y := by
    have hne : (rows : ℚ) ≠ 0 := ne_of_gt hrQ
    field_simp
  have hvalid : ∀ r c, r < rows → c < cols →
      (gridCell bbox rows cols w h r c).bbox.valid := by
    intro r c hrr hcc
    constructor
    · rw [gridCell_min_x bbox rows cols w h hc r c,
        gridCell_max_x bbox rows cols w h hc r c hcc]
      have := mul_lt_mul_of_pos_right (lt_add_one (c : ℚ)) hsx
      linarith
    · rw [gridCell_min_y bbox rows cols w h hr r c,
        gridCell_max_y bbox rows cols w h hr r c hrr]
      have := mul_lt_mul_of_pos_right (lt_add_one (r : ℚ)) hsy
      linarith
  have hall : (gridTileList bbox rows cols w h).all TileGeometry.pydanticValid = true := by
    rw [List.all_eq_true]
    intro t ht
    obtain ⟨r, hrr, c, hcc, rfl⟩ := (gridTileList_mem bbox rows cols w h t).mp ht
    obtain ⟨hv1, hv2⟩ := hvalid r c hrr hcc
    unfold TileGeometry.pydanticValid
    rw [gridCell_width, gridCell_height, gridCell_bbox_crs, gridCell_crs]
    simp only [Bool.and_eq_true, decide_eq_true_eq]
    refine ⟨⟨⟨hw, hh⟩, ?_⟩, trivial⟩
    unfold validate_bbox
    rw [if_neg (not_le.mpr hv1), if_neg (not_le.mpr hv2)]
  refine ⟨?_, gridTileList_length bbox rows cols w h, ?_, ?_, ?_, ?_, ?_, ?_, ?_, ?_⟩
  · -- the planner returns exactly the grid tile list
    simp only [plan_tiles, Option.getD_some]
    rw [if_neg ?hgs]
    case hgs =>
      push_neg
      constructor
      · exact_mod_cast hr
      · exact_mod_cast hc
    rw [Int.toNat_natCast, Int.toNat_natCast, if_pos hall]
  · -- fixed chunk pixel sizes
    intro t ht
    obtain ⟨r, hrr, c, hcc, rfl⟩ := (gridTileList_mem bbox rows cols w h t).mp ht
    exact ⟨rfl, rfl⟩
  · -- each cell inside the input box, and valid
    intro t ht
    obtain ⟨r, hrr, c, hcc, rfl⟩ := (gridTileList_mem bbox rows cols w h t).mp ht
    rw [gridCell_min_x bbox rows cols w h hc r c,
      gridCell_max_x bbox rows cols w h hc r c hcc,
      gridCell_min_y bbox rows cols w h hr r c,
      gridCell_max_y bbox rows cols w h hr r c hrr]
    have hc1 : ((c : ℚ) + 1) ≤ (cols : ℚ) := by exact_mod_cast hcc
    have hr1 : ((r : ℚ) + 1) ≤ (rows : ℚ) := by exact_mod_cast hrr
    refine ⟨?_, ?_, ?_, ?_, hvalid r c hrr hcc⟩
    · have : 0 ≤ (c : ℚ) * ((bbox.max_x - bbox.min_x) / (cols : ℚ)) :=
        mul_nonneg (Nat.cast_nonneg c) (le_of_lt hsx)
      linarith
    · have := mul_le_mul_of_nonneg_right hc1 (le_of_lt hsx)
      linarith
    · have : 0 ≤ (r : ℚ) * ((bbox.max_y - bbox.min_y) / (rows : ℚ)) :=
        mul_nonneg (Nat.cast_nonneg r) (le_of_lt hsy)
      linarith
    · have := mul_le_mul_of_nonneg_right hr1 (le_of_lt hsy)
      linarith
  · -- coverage: every point of the box lies in some cell
    intro x y hx1 hx2 hy1 hy2
    obtain ⟨c, hcc, hcl, hcu⟩ := grid_cover_1d bbox.min_x bbox.max_x cols hc hx x hx1 hx2
    obtain ⟨r, hrr, hrl, hru⟩ := grid_cover_1d bbox.min_y bbox.max_y rows hr hy y hy1 hy2
    refine ⟨gridCell bbox rows cols w h r c,
      (gridTileList_mem bbox rows cols w h _).mpr ⟨r, hrr, c, hcc, rfl⟩, ?_, ?_, ?_, ?_⟩
    · rw [gridCell_min_x bbox rows cols w h hc r c]; exact hcl
    · rw [gridCell_max_x bbox rows cols w h hc r c hcc]; exact hcu
    · rw [gridCell_min_y bbox rows cols w h hr r c]; exact hrl
    · rw [gridCell_max_y bbox rows cols w h hr r c hrr]; exact hru
  · -- interiors of distinct cells are disjoint
    intro r c r' c' hrr hcc hrr' hcc' hneq x y hboth
    obtain ⟨h1, h2⟩ := hboth
    unfold strictlyInside at h1 h2
    rw [gridCell_min_x bbox rows cols w h hc r c,
      gridCell_max_x bbox rows cols w h hc r c hcc,
      gridCell_min_y bbox rows cols w h hr r c,
      gridCell_max_y bbox rows cols w h hr r c hrr] at h1
    rw [gridCell_min_x bbox rows cols w h hc r' c',
      gridCell_max_x bbox rows cols w h hc r' c' hcc',
      gridCell_min_y bbox rows cols w h hr r' c',
      gridCell_max_y bbox rows cols w h hr r' c' hrr'] at h2
    obtain ⟨ha1, ha2, ha3, ha4⟩ := h1
    obtain ⟨hb1, hb2, hb3, hb4⟩ := h2
    have hsplit : c ≠ c' ∨ r ≠ r' := by
      by_contra hno
      push_neg at hno
      exact hneq (by rw [hno.2, hno.1])
    rcases hsplit with hcne | hrne
    · rcases Nat.lt_or_ge c c' with hlt | hge
      · have hcast : ((c : ℚ) + 1) ≤ (c' : ℚ) := by exact_mod_cast hlt
        have := mul_le_mul_of_nonneg_right hcast (le_of_lt hsx)
        linarith
      · have hlt : c' < c := by omega
        have hcast : ((c' : ℚ) + 1) ≤ (c : ℚ) := by exact_mod_cast hlt
        have := mul_le_mul_of_nonneg_right hcast (le_of_lt hsx)
        linarith
    · rcases Nat.lt_or_ge r r' with hlt | hge
      · have hcast : ((r : ℚ) + 1) ≤ (r' : ℚ) := by exact_mod_cast hlt
        have := mul_le_mul_of_nonneg_right hcast (le_of_lt hsy)
        linarith
      · have hlt : r' < r := by omega
        have hcast : ((r' : ℚ) + 1) ≤ (r : ℚ) := by exact_mod_cast hlt
        have := mul_le_mul_of_nonneg_right hcast (le_of_lt hsy)
        linarith
  · -- horizontally adjacent cells share their vertical edge
    intro r c hrr hcc
    rw [gridCell_max_x bbox rows cols w h hc r c (by omega),
      gridCell_min_x bbox rows cols w h hc r (c + 1)]
    push_cast
    ring
  · -- vertically adjacent cells share their horizontal edge
    intro r c hrr hcc
    rw [gridCell_max_y bbox rows cols w h hr r c (by omega),
      gridCell_min_y bbox rows cols w h hr (r + 1) c]
    push_cast
    ring
  · -- first column starts at min_x, last column ends exactly at max_x
    intro r hrr
    constructor
    · rw [gridCell_min_x bbox rows cols w h hc r 0]
      norm_num
    · simp only [gridCell, if_pos hc]
      rw [if_neg (lt_irrefl (cols - 1))]
  · -- first row starts at min_y, last row ends exactly at max_y
    intro c hcc
    constructor
    · rw [gridCell_min_y bbox rows cols w h hr 0 c]
      norm_num
    · simp only [gridCell, if_pos hr]
      rw [if_neg (lt_irrefl (rows - 1))]

/-- Witness for `plan_tiles_explicit_grid_exact_tiling`: the `2×2` grid over
the box `(0,0,2,2)` with `256×256` chunk pixels plans exactly its grid tile
list, of length 4. -/
theorem plan_tiles_explicit_grid_exact_tiling_witness :
    plan_tiles ⟨0, 0, 2, 2, .epsg4326⟩ (256, 256) none (some ((2 : Int), (2 : Int))) =
      .ok (gridTileList ⟨0, 0, 2, 2, .epsg4326⟩ 2 2 256 256)
    ∧ (gridTileList ⟨0, 0, 2, 2, .epsg4326⟩ 2 2 256 256).length = 2 * 2 :=
  ⟨(plan_tiles_explicit_grid_exact_tiling ⟨0, 0, 2, 2, .epsg4326⟩ 256 256 2 2
      ⟨by norm_num, by norm_num⟩ (by omega) (by omega) (by omega) (by omega)).1,
   (plan_tiles_explicit_grid_exact_tiling ⟨0, 0, 2, 2, .epsg4326⟩ 256 256 2 2
      ⟨by norm_num, by norm_num⟩ (by omega) (by omega) (by omega) (by omega)).2.1⟩

end TileArray
